import Mathlib

/-!
Verification of the switchcraft declarative switch-management core.

This file shallowly embeds the parts of the Python sources that the
claims under scrutiny are about:

* `config_engine/schema.py`  — data model (desired state, diff, plan, results)
* `config_engine/diff.py`    — `DiffEngine.calculate` / `_diff_vlan` / `_diff_port`
* `config_engine/generator.py` — `CommandGenerator._generate_brocade` and helpers
* `config_engine/validator.py` — `ConfigValidator.validate` and helpers
* `config_engine/parser.py`  — port-range expansion
* `config_engine/executor.py` — `ConfigExecutor.execute` / `_dry_run`
* `config_store/store.py`    — `ConfigStore._check_vlan_drift` / `_expand_ports`
* `devices/brocade.py`       — `_parse_port_line`, `_has_error`, `_parse_batch_output`
* `devices/zyxel.py`         — `zyxel_encode_password`

Conventions of the embedding:

* Python `dict`s that the code iterates over are modelled as association
  lists in insertion order; dict *construction* with later keys winning is
  modelled by looking up the last matching entry.
* A Python `set` has unspecified iteration order.  Wherever the code turns
  a set back into a list (`list(a - b)`, `', '.join(s)`) we fix a concrete
  order (first-occurrence or sorted, stated at each definition); every
  property proved about such lists is order-insensitive.
* Machine integers do not overflow in the modelled code paths; `Int`/`Nat`
  are used directly.
-/

namespace Switchcraft

/-- Python enum `VLANAction` from `config_engine/schema.py`. -/
inductive VLANAction where
  | ensure
  | absent
deriving DecidableEq, Repr

/-- Python enum `ChangeType` from `config_engine/schema.py`. -/
inductive ChangeType where
  | create
  | modify
  | delete
  | no_change
deriving DecidableEq, Repr

/-- Dataclass `IPInterface` from `config_engine/schema.py`. -/
structure IPInterface where
  address : String
  mask : String
deriving DecidableEq, Repr

/-- Dataclass `VLANDesiredState` from `config_engine/schema.py`. -/
structure VLANDesiredState where
  id : Int
  action : VLANAction := .ensure
  name : Option String := none
  untagged_ports : List String := []
  tagged_ports : List String := []
  ip_interface : Option IPInterface := none
deriving DecidableEq, Repr

/-- Dataclass `PortDesiredState` from `config_engine/schema.py`. -/
structure PortDesiredState where
  name : String
  enabled : Option Bool := none
  description : Option String := none
  speed : Option String := none
deriving DecidableEq, Repr

/-- Dataclass `DesiredState` from `config_engine/schema.py`.  The `vlans`
and `ports` dicts are modelled as association lists in insertion order;
the free-form `settings` map plays no role in any claim and is omitted. -/
structure DesiredState where
  device_id : String
  version : Int := 1
  checksum : Option String := none
  mode : String := "patch"
  vlans : List (Int × VLANDesiredState) := []
  ports : List (String × PortDesiredState) := []
deriving DecidableEq, Repr

/-- Dataclass `VLANConfig` from `devices/base.py` (normalized live VLAN). -/
structure VLANConfig where
  id : Int
  name : String := ""
  tagged_ports : List String := []
  untagged_ports : List String := []
  ip_address : Option String := none
  ip_mask : Option String := none
  description : String := ""
deriving DecidableEq, Repr

/-- Dataclass `PortConfig` from `devices/base.py` (normalized live port). -/
structure PortConfig where
  name : String
  enabled : Bool := true
  speed : Option String := none
  duplex : Option String := none
  vlan_mode : String := "access"
  native_vlan : Option Int := none
  allowed_vlans : List Int := []
  description : String := ""
  poe_enabled : Option Bool := none
deriving DecidableEq, Repr

/-- Dataclass `VLANChange` from `config_engine/schema.py`. -/
structure VLANChange where
  vlan_id : Int
  change_type : ChangeType
  current_name : Option String := none
  desired_name : Option String := none
  ports_to_add_untagged : List String := []
  ports_to_remove_untagged : List String := []
  ports_to_add_tagged : List String := []
  ports_to_remove_tagged : List String := []
deriving DecidableEq, Repr

/-- Dataclass `PortChange` from `config_engine/schema.py`. -/
structure PortChange where
  port_name : String
  change_type : ChangeType
  enabled : Option Bool := none
  description : Option String := none
  speed : Option String := none
deriving DecidableEq, Repr

/-- Dataclass `DiffResult` from `config_engine/schema.py`. -/
structure DiffResult where
  vlan_changes : List VLANChange := []
  port_changes : List PortChange := []
deriving DecidableEq, Repr

/-- Property `DiffResult.no_change` from `config_engine/schema.py`. -/
def DiffResult.no_change (d : DiffResult) : Bool :=
  d.vlan_changes.isEmpty && d.port_changes.isEmpty

/-- Lookup in the Python dict comprehension `{v.id: v for v in current_vlans}`:
when two live VLANs share an id the later one wins. -/
def vlanMapGet (current_vlans : List VLANConfig) (vid : Int) : Option VLANConfig :=
  current_vlans.reverse.find? (fun v => v.id = vid)

/-- Lookup in the Python dict comprehension `{p.name: p for p in current_ports}`. -/
def portMapGet (current_ports : List PortConfig) (pname : String) : Option PortConfig :=
  current_ports.reverse.find? (fun p => p.name = pname)

/-- Python `list(set(a) - set(b))` over strings, as used in
`DiffEngine._diff_vlan`.  A Python set iterates in unspecified order; the
resulting list is modelled in order of occurrence in `a` with duplicates
removed (keeping the last), which is immaterial to every property proved. -/
def pySetDiff (a b : List String) : List String :=
  (a.filter (fun s => !(b.contains s))).dedup

/-- Truthiness test `desired.name and desired.name != current.name` from
`DiffEngine._diff_vlan`: an unset or empty desired name is falsy. -/
def nameChange (desiredName : Option String) (currentName : String) : Bool :=
  match desiredName with
  | none => false
  | some s => s ≠ "" && s ≠ currentName

/-- Method `DiffEngine._diff_vlan` from `config_engine/diff.py`. -/
def diffVlan (vlan_id : Int) (desired : VLANDesiredState)
    (current : Option VLANConfig) : Option VLANChange :=
  match desired.action with
  | .absent =>
    match current with
    | some cur =>
        some { vlan_id := vlan_id, change_type := .delete,
               current_name := some cur.name }
    | none => none
  | .ensure =>
    match current with
    | none =>
        some { vlan_id := vlan_id, change_type := .create,
               desired_name := desired.name,
               ports_to_add_untagged := desired.untagged_ports,
               ports_to_add_tagged := desired.tagged_ports }
    | some cur =>
        let addU := pySetDiff desired.untagged_ports cur.untagged_ports
        let remU := pySetDiff cur.untagged_ports desired.untagged_ports
        let addT := pySetDiff desired.tagged_ports cur.tagged_ports
        let remT := pySetDiff cur.tagged_ports desired.tagged_ports
        let hasChanges :=
          !addU.isEmpty || !remU.isEmpty || !addT.isEmpty || !remT.isEmpty ||
          nameChange desired.name cur.name
        if hasChanges then
          some { vlan_id := vlan_id, change_type := .modify,
                 current_name := some cur.name, desired_name := desired.name,
                 ports_to_add_untagged := addU, ports_to_remove_untagged := remU,
                 ports_to_add_tagged := addT, ports_to_remove_tagged := remT }
        else none

/-- Method `DiffEngine._diff_port` from `config_engine/diff.py`. -/
def diffPort (port_name : String) (desired : PortDesiredState)
    (current : Option PortConfig) : Option PortChange :=
  let currentEnabled := match current with | some c => c.enabled | none => true
  let enabledField : Option Bool :=
    match desired.enabled with
    | some d => if d ≠ currentEnabled then some d else none
    | none => none
  let currentDesc := match current with | some c => c.description | none => ""
  let descField : Option String :=
    match desired.description with
    | some d => if d ≠ currentDesc then some d else none
    | none => none
  let currentSpeed : Option String :=
    match current with | some c => c.speed | none => some "auto"
  let speedField : Option String :=
    match desired.speed with
    | some d => if some d ≠ currentSpeed then some d else none
    | none => none
  if enabledField.isSome || descField.isSome || speedField.isSome then
    some { port_name := port_name, change_type := .modify,
           enabled := enabledField, description := descField,
           speed := speedField }
  else none

/-- Method `DiffEngine.calculate` from `config_engine/diff.py`.  Fetching the
live state from the device is replaced by passing the live VLAN and port
lists explicitly. -/
def calculate (current_vlans : List VLANConfig) (current_ports : List PortConfig)
    (desired : DesiredState) : DiffResult :=
  { vlan_changes :=
      desired.vlans.filterMap
        (fun p => diffVlan p.1 p.2 (vlanMapGet current_vlans p.1)),
    port_changes :=
      desired.ports.filterMap
        (fun p => diffPort p.1 p.2 (portMapGet current_ports p.1)) }

/-! Embedding of `zyxel_encode_password` from `devices/zyxel.py`. -/

/-- Alphabet `possible` of `zyxel_encode_password`. -/
def zyxelPossible : List Char :=
  "ABCDEFGHIJKLMNOPQRSTUVWXYZabcdefghijklmnopqrstuvwxyz0123456789".data

/-- Python `str(n)` for a natural number, as a character list. -/
def pyRepr (n : Nat) : List Char := Nat.toDigits 10 n

/-- Body of one iteration of the `zyxel_encode_password` loop: given the loop
counter `i` and the current `char_idx`, return the characters appended to
`text` and the updated `char_idx`.  The call `random.choice(possible)` is
modelled by the oracle `rnd`, indexed by the loop counter. -/
def zyxelChunk (rnd : Nat → Char) (pwd : List Char) (i charIdx : Nat) :
    List Char × Nat :=
  if i % 5 = 0 ∧ 0 < charIdx then
    ([pwd.getD (charIdx - 1) ' '], charIdx - 1)
  else if i = 123 then
    ((if pwd.length < 10 then ['0'] else pyRepr (pwd.length / 10)), charIdx)
  else if i = 289 then
    (pyRepr (pwd.length % 10), charIdx)
  else
    ([rnd i], charIdx)

/-- Loop of `zyxel_encode_password`: `fuel` counts the remaining iterations,
`i` is the loop counter, `charIdx` the running `char_idx`. -/
def zyxelLoopFrom (rnd : Nat → Char) (pwd : List Char) :
    Nat → Nat → Nat → List Char
  | 0, _, _ => []
  | fuel + 1, i, charIdx =>
      let step := zyxelChunk rnd pwd i charIdx
      step.1 ++ zyxelLoopFrom rnd pwd fuel (i + 1) step.2

/-- Function `zyxel_encode_password` from `devices/zyxel.py`: the loop runs
`i` over `range(1, 322 - len(pwd))`, i.e. for `(322 - len(pwd)) - 1`
iterations, starting from `char_idx = len(pwd)`. -/
def zyxelEncodePassword (rnd : Nat → Char) (pwd : List Char) : List Char :=
  zyxelLoopFrom rnd pwd ((322 - pwd.length) - 1) 1 pwd.length

/-- Expected character of the encoding at 1-indexed position `i`, with the
running `char_idx` replaced by its closed form: by position `i`, exactly
`min len ((i-1)/5)` password characters have been consumed. -/
def zyxelExpected (rnd : Nat → Char) (pwd : List Char) (i : Nat) : Char :=
  if i % 5 = 0 ∧ i / 5 ≤ pwd.length then
    pwd.getD (pwd.length - i / 5) ' '
  else if i = 123 then
    (if pwd.length < 10 then '0' else Nat.digitChar (pwd.length / 10))
  else if i = 289 then
    Nat.digitChar (pwd.length % 10)
  else rnd i

/-! Python string primitives used by the embedded parsing code. -/

/-- Count of a character in a string, modelling Python `s.count(c)` for a
single-character needle. -/
def strCount (s : String) (c : Char) : Nat := s.data.count c

/-- Python `c in s` for a single-character needle. -/
def strContainsChar (s : String) (c : Char) : Bool := s.data.contains c

/-- Split a character list at the first occurrence of `c`, returning the
parts before and after it, or `none` when `c` does not occur. -/
def splitFirstChar (c : Char) : List Char → Option (List Char × List Char)
  | [] => none
  | x :: xs =>
    if x = c then some ([], xs)
    else
      match splitFirstChar c xs with
      | none => none
      | some (a, b) => some (x :: a, b)

/-- Split a character list at the last occurrence of `c`, modelling Python
`s.rsplit(c, 1)` (which yields two parts exactly when `c` occurs). -/
def splitLastChar (c : Char) (l : List Char) : Option (List Char × List Char) :=
  match splitFirstChar c l.reverse with
  | none => none
  | some (a, b) => some (b.reverse, a.reverse)

/-- Decimal value of a non-empty all-digit character list. -/
def digitsVal? (l : List Char) : Option Nat :=
  if l = [] then none
  else if l.all (fun c => c.isDigit) then
    some (l.foldl (fun acc c => acc * 10 + (c.toNat - 48)) 0)
  else none

/-- Python `int(s)` restricted to strings with an optional sign followed by
decimal digits (no whitespace or underscores, which never occur in the
modelled inputs); `none` models the `ValueError` path. -/
def pyInt? (s : String) : Option Int :=
  match s.data with
  | '-' :: rest =>
      match digitsVal? rest with
      | some n => some (-(n : Int))
      | none => none
  | '+' :: rest =>
      match digitsVal? rest with
      | some n => some (n : Int)
      | none => none
  | l =>
      match digitsVal? l with
      | some n => some (n : Int)
      | none => none

/-- Python `range(a, b + 1)` over integers, as the inclusive list `[a..b]`
(empty when `a > b`). -/
def pyRangeIncl (a b : Int) : List Int :=
  (List.range (b - a + 1).toNat).map (fun k => a + k)

/-- Split a character list at every occurrence of `c`, modelling Python
`s.split(c)` for a one-character separator (the empty string yields one
empty part). -/
def splitAllChar (c : Char) : List Char → List (List Char)
  | [] => [[]]
  | x :: xs =>
    let rest := splitAllChar c xs
    if x = c then [] :: rest
    else (x :: rest.headD []) :: rest.tail

/-- Python `s.split(c)` on strings, via `splitAllChar`. -/
def pySplitChar (c : Char) (s : String) : List String :=
  (splitAllChar c s.data).map String.mk

/-- Structural prefix test on character lists. -/
def listStarts : List Char → List Char → Bool
  | [], _ => true
  | _ :: _, [] => false
  | p :: ps, s :: ss => p == s && listStarts ps ss

/-- Python `s.startswith(p)`. -/
def strStarts (p s : String) : Bool := listStarts p.data s.data

/-- Insertion of a string into an ascending list, for `pySorted`. -/
def insertAsc (s : String) : List String → List String
  | [] => [s]
  | x :: xs => if x < s then x :: insertAsc s xs else s :: x :: xs

/-- Python `sorted(...)` on a collection of strings (ascending). -/
def pySorted : List String → List String
  | [] => []
  | x :: xs => insertAsc x (pySorted xs)

/-- Python `sep.join(l)`. -/
def joinSep (sep : String) : List String → String
  | [] => ""
  | [x] => x
  | x :: xs => x ++ sep ++ joinSep sep xs

/-- Python `', '.join(l)`. -/
def joinComma (l : List String) : String := joinSep ", " l

/-! Embedding of the port-range expansion from `config_engine/parser.py`. -/

/-- Method `ConfigParser._expand_full_range` from `config_engine/parser.py`:
expand `start`..`endp` when both are three-component identifiers sharing
unit and module; any structural mismatch or non-numeric position returns the
pair `[start, endp]` (the `except` path included). -/
def expandFullRange (start endp : String) : List String :=
  let start_parts := pySplitChar '/' start
  let end_parts := pySplitChar '/' endp
  if start_parts.length ≠ 3 ∨ end_parts.length ≠ 3 then [start, endp]
  else if start_parts.getD 0 "" ≠ end_parts.getD 0 "" ∨
          start_parts.getD 1 "" ≠ end_parts.getD 1 "" then [start, endp]
  else
    match pyInt? (start_parts.getD 2 ""), pyInt? (end_parts.getD 2 "") with
    | some start_port, some end_port =>
        (pyRangeIncl start_port end_port).map
          (fun i => start_parts.getD 0 "" ++ "/" ++ start_parts.getD 1 "" ++
            "/" ++ toString i)
    | _, _ => [start, endp]

/-- Method `ConfigParser._expand_port_range` from `config_engine/parser.py`.
All of Python's failure paths (`ValueError` on `int`, `IndexError` on
`base_parts[1]`) funnel to returning `[port_spec]` unchanged. -/
def expandPortRange (port_spec : String) : List String :=
  if strCount port_spec '-' = 1 then
    match splitLastChar '-' port_spec.data with
    | some (baseL, endL) =>
      if strContainsChar (String.mk endL) '/' then
        expandFullRange (String.mk baseL) (String.mk endL)
      else
        match pyInt? (String.mk endL) with
        | none => [port_spec]
        | some end_num =>
          match splitLastChar '/' baseL with
          | none => [port_spec]
          | some (prefL, startL) =>
            match pyInt? (String.mk startL) with
            | none => [port_spec]
            | some start_num =>
              (pyRangeIncl start_num end_num).map
                (fun i => String.mk prefL ++ "/" ++ toString i)
    | none => [port_spec]
  else [port_spec]

/-- Method `ConfigParser._expand_port_list` from `config_engine/parser.py`
on a list input (the single-string overload first wraps it in a list). -/
def expandPortList (ports : List String) : List String :=
  (ports.map (fun port =>
    if strContainsChar port '-' && strContainsChar port '/' then
      expandPortRange port
    else [port])).flatten

/-! Embedding of the drift calculation from `config_store/store.py`. -/

/-- Dataclass `DriftItem` from `config_store/store.py`, specialized to the
VLAN-membership items emitted by `_check_vlan_drift`, whose `expected` and
`actual` payloads are always port lists. -/
structure DriftItem where
  category : String
  item_id : String
  drift_type : String
  expected : List String
  actual : List String
  details : String
deriving DecidableEq, Repr

/-- Stored VLAN entry as consumed by `ConfigStore._check_vlan_drift`: the
Python code reads `untagged_ports` / `tagged_ports` keys with `[]` default. -/
structure StoredVlan where
  untagged_ports : List String := []
  tagged_ports : List String := []
deriving DecidableEq, Repr

/-- Method `ConfigStore._expand_ports` from `config_store/store.py` (on a
list input): unlike the parser's version it performs no `count("-") == 1`
check and supports no full-form ranges; every failure appends the original
token. -/
def storeExpandPorts (ports : List String) : List String :=
  (ports.map (fun port =>
    if strContainsChar port '-' && strContainsChar port '/' then
      match splitLastChar '-' port.data with
      | none => [port]
      | some (baseL, endL) =>
        match pyInt? (String.mk endL) with
        | none => [port]
        | some endNum =>
          match splitLastChar '/' baseL with
          | none => [port]
          | some (prefL, startL) =>
            match pyInt? (String.mk startL) with
            | none => [port]
            | some startNum =>
              (pyRangeIncl startNum endNum).map
                (fun i => String.mk prefL ++ "/" ++ toString i)
    else [port])).flatten

/-- Python set `set(self._expand_ports(desired.get("untagged_ports", [])))`
of `_check_vlan_drift`, as a deduplicated list. -/
def driftDU (desired : StoredVlan) : List String :=
  (storeExpandPorts desired.untagged_ports).dedup

/-- Python set `set(actual.get("untagged_ports", []))` of
`_check_vlan_drift`. -/
def driftAU (actual : StoredVlan) : List String :=
  actual.untagged_ports.dedup

/-- Set difference `desired_untagged - actual_untagged`. -/
def driftMissingU (desired actual : StoredVlan) : List String :=
  (driftDU desired).filter (fun s => !((driftAU actual).contains s))

/-- Set difference `actual_untagged - desired_untagged`. -/
def driftExtraU (desired actual : StoredVlan) : List String :=
  (driftAU actual).filter (fun s => !((driftDU desired).contains s))

/-- Python set of expanded desired tagged ports of `_check_vlan_drift`. -/
def driftDT (desired : StoredVlan) : List String :=
  (storeExpandPorts desired.tagged_ports).dedup

/-- Python set of actual tagged ports of `_check_vlan_drift`. -/
def driftAT (actual : StoredVlan) : List String :=
  actual.tagged_ports.dedup

/-- Set difference `desired_tagged - actual_tagged`. -/
def driftMissingT (desired actual : StoredVlan) : List String :=
  (driftDT desired).filter (fun s => !((driftAT actual).contains s))

/-- Missing-untagged `DriftItem` appended by `_check_vlan_drift`. -/
def driftItemMU (vlan_id : Int) (desired actual : StoredVlan) : DriftItem :=
  { category := "vlan", item_id := toString vlan_id,
    drift_type := "modified", expected := driftDU desired,
    actual := driftAU actual,
    details := "Missing untagged ports: " ++
      joinComma (pySorted (driftMissingU desired actual)) }

/-- Extra-untagged `DriftItem` appended by `_check_vlan_drift`. -/
def driftItemEU (vlan_id : Int) (desired actual : StoredVlan) : DriftItem :=
  { category := "vlan", item_id := toString vlan_id,
    drift_type := "modified", expected := driftDU desired,
    actual := driftAU actual,
    details := "Extra untagged ports: " ++
      joinComma (pySorted (driftExtraU desired actual)) }

/-- Missing-tagged `DriftItem` appended by `_check_vlan_drift`. -/
def driftItemMT (vlan_id : Int) (desired actual : StoredVlan) : DriftItem :=
  { category := "vlan", item_id := toString vlan_id,
    drift_type := "modified", expected := driftDT desired,
    actual := driftAT actual,
    details := "Missing tagged ports: " ++
      joinComma (pySorted (driftMissingT desired actual)) }

/-- Method `ConfigStore._check_vlan_drift` from `config_store/store.py`.
Python sets are modelled as first-occurrence-deduplicated lists; the
`details` strings sort the offending set, as the source does.  The source
never emits an extra-tagged item. -/
def checkVlanDrift (vlan_id : Int) (desired actual : StoredVlan) :
    List DriftItem :=
  (if driftMissingU desired actual ≠ [] then
    [driftItemMU vlan_id desired actual] else []) ++
  (if driftExtraU desired actual ≠ [] ∧ driftDU desired ≠ [] then
    [driftItemEU vlan_id desired actual] else []) ++
  (if driftMissingT desired actual ≠ [] then
    [driftItemMT vlan_id desired actual] else [])

/-! Embedding of `ConfigValidator` from `config_engine/validator.py`. -/

/-- Non-empty all-digit character test (regex `\d+`). -/
def isDigits (l : List Char) : Bool := !l.isEmpty && l.all (fun c => c.isDigit)

/-- Regex `^\d+/\d+/\d+$` from `PORT_PATTERNS["brocade"]`. -/
def brocadePortPat (port : String) : Bool :=
  match splitAllChar '/' port.data with
  | [a, b, c] => isDigits a && isDigits b && isDigits c
  | _ => false

/-- Regex `^lan\d+$` from `PORT_PATTERNS["openwrt"]`. -/
def openwrtPortPat (port : String) : Bool :=
  match port.data with
  | 'l' :: 'a' :: 'n' :: rest => isDigits rest
  | _ => false

/-- Regex `^\d+$` from `PORT_PATTERNS["zyxel"]`. -/
def zyxelPortPat (port : String) : Bool := isDigits port.data

/-- Method `ConfigValidator._valid_port_name`: with a known device type use
its pattern, otherwise accept any known pattern. -/
def validPortName (device_type : Option String) (port : String) : Bool :=
  if port = "" then false
  else
    match device_type with
    | some t =>
      if t = "brocade" then brocadePortPat port
      else if t = "openwrt" then openwrtPortPat port
      else if t = "zyxel" then zyxelPortPat port
      else brocadePortPat port || openwrtPortPat port || zyxelPortPat port
    | none => brocadePortPat port || openwrtPortPat port || zyxelPortPat port

/-- Dataclass `ValidationResult` from `config_engine/schema.py`. -/
structure ValidationResult where
  valid : Bool
  errors : List String := []
  warnings : List String := []
deriving DecidableEq, Repr

/-- Errors appended by `ConfigValidator._validate_vlans` (the reserved-id
branch is unreachable after the range check but kept faithfully). -/
def validateVlansErrors (device_type : Option String)
    (vlans : List (Int × VLANDesiredState)) : List String :=
  (vlans.map (fun p =>
    if p.1 < 1 ∨ p.1 > 4094 then
      ["Invalid VLAN ID " ++ toString p.1 ++ ": must be between 1 and 4094"]
    else if p.1 = 0 then
      ["VLAN 0 is reserved: Reserved for internal use"]
    else if p.1 = 4095 then
      ["VLAN 4095 is reserved: Reserved (IEEE 802.1Q)"]
    else
      (if p.1 = 1 ∧ p.2.action = .absent then
        ["Cannot delete VLAN " ++ toString p.1 ++ ": Default VLAN"]
       else []) ++
      ((p.2.untagged_ports ++ p.2.tagged_ports).filterMap (fun port =>
        if validPortName device_type port then none
        else some ("Invalid port name '" ++ port ++ "' in VLAN " ++
          toString p.1))))).flatten

/-- Warnings appended by `ConfigValidator._validate_vlans` (empty ensure
VLANs; skipped for ids taken out by the range/reserved `continue`s). -/
def validateVlansWarnings (vlans : List (Int × VLANDesiredState)) :
    List String :=
  vlans.filterMap (fun p =>
    if ¬ (p.1 < 1 ∨ p.1 > 4094) ∧ p.1 ≠ 0 ∧ p.1 ≠ 4095 ∧
        p.2.action = .ensure ∧ p.2.untagged_ports = [] ∧
        p.2.tagged_ports = [] then
      some ("VLAN " ++ toString p.1 ++ " has no ports assigned")
    else none)

/-- Errors appended by `ConfigValidator._validate_ports`. -/
def validatePortsErrors (device_type : Option String)
    (ports : List (String × PortDesiredState)) : List String :=
  (ports.map (fun p =>
    (if validPortName device_type p.1 then []
     else ["Invalid port name: " ++ p.1]) ++
    (match p.2.speed with
     | some s =>
        if s ≠ "" ∧ s ∉ (["auto", "100M", "1G", "10G"] : List String) then
          ["Invalid speed '" ++ s ++ "' for port " ++ p.1 ++
            ". Valid: auto, 100M, 1G, 10G"]
        else []
     | none => []))).flatten

/-- Error message for a port untagged in two VLANs, from
`ConfigValidator._check_port_conflicts`. -/
def conflictMsg (port : String) (v1 v2 : Int) : String :=
  "Port " ++ port ++ " assigned untagged to both VLAN " ++ toString v1 ++
    " and VLAN " ++ toString v2

/-- Error message for a port both tagged and untagged in one VLAN, from
`ConfigValidator._check_port_conflicts`. -/
def overlapMsg (ports : List String) (vid : Int) : String :=
  "Port(s) " ++ joinComma ports ++ " in VLAN " ++ toString vid ++
    " cannot be both tagged and untagged"

/-- Inner loop of the first pass of `_check_port_conflicts` over one ensure
VLAN's untagged ports, threading the `untagged_assignments` dict (an
insertion-ordered association list with first-wins lookup) and the error
list. -/
def untaggedFold (vid : Int) : List String → List (String × Int) →
    List String → List (String × Int) × List String
  | [], assigns, errs => (assigns, errs)
  | port :: rest, assigns, errs =>
    match assigns.find? (fun q => q.1 = port) with
    | some q => untaggedFold vid rest assigns (errs ++ [conflictMsg port q.2 vid])
    | none => untaggedFold vid rest (assigns ++ [(port, vid)]) errs

/-- First pass of `_check_port_conflicts`: walk the VLANs in order, skipping
absent-action entries. -/
def conflictAux : List (Int × VLANDesiredState) → List (String × Int) →
    List String → List (String × Int) × List String
  | [], assigns, errs => (assigns, errs)
  | p :: rest, assigns, errs =>
    if p.2.action = .absent then conflictAux rest assigns errs
    else
      let st := untaggedFold p.1 p.2.untagged_ports assigns errs
      conflictAux rest st.1 st.2

/-- Python set intersection `set(vlan.untagged_ports) & set(vlan.tagged_ports)`
as a deduplicated list (iteration order modelled as first occurrence in the
untagged list; a Python set's order is unspecified). -/
def overlapPorts (v : VLANDesiredState) : List String :=
  v.untagged_ports.dedup.filter (fun s => v.tagged_ports.contains s)

/-- Second pass of `_check_port_conflicts`: tagged/untagged overlap within
each ensure VLAN. -/
def overlapErrors (vlans : List (Int × VLANDesiredState)) : List String :=
  vlans.filterMap (fun p =>
    if p.2.action = .absent then none
    else if overlapPorts p.2 ≠ [] then
      some (overlapMsg (overlapPorts p.2) p.1)
    else none)

/-- Method `ConfigValidator._check_port_conflicts`. -/
def checkPortConflicts (vlans : List (Int × VLANDesiredState)) : List String :=
  (conflictAux vlans [] []).2 ++ overlapErrors vlans

/-- Warnings of `ConfigValidator._check_change_size`. -/
def changeSizeWarnings (desired : DesiredState) : List String :=
  let total_items := desired.vlans.length + desired.ports.length
  let total_ports := (desired.vlans.map (fun p =>
    p.2.untagged_ports.length + p.2.tagged_ports.length)).sum
  (if total_items > 20 then
    ["Large change set (" ++ toString total_items ++ " items) - consider staging"]
   else []) ++
  (if total_ports > 50 then
    ["Many port changes (" ++ toString total_ports ++ " ports) - verify before applying"]
   else [])

/-- Method `ConfigValidator.validate` from `config_engine/validator.py`
(`_verify_checksum` is a no-op in the source). -/
def validate (device_type : Option String) (desired : DesiredState) :
    ValidationResult :=
  let errors := validateVlansErrors device_type desired.vlans ++
    validatePortsErrors device_type desired.ports ++
    checkPortConflicts desired.vlans
  let warnings := validateVlansWarnings desired.vlans ++
    changeSizeWarnings desired
  { valid := errors.isEmpty, errors := errors, warnings := warnings }

/-! Embedding of `CommandGenerator` from `config_engine/generator.py`. -/

/-- Dataclass `CommandPlan` from `config_engine/schema.py`. -/
structure CommandPlan where
  pre_commands : List String := []
  main_commands : List String := []
  post_commands : List String := []
  rollback_commands : List String := []
deriving DecidableEq, Repr

/-- Parsed port entry `(unit, module, position, original)` used by
`_group_ports_by_module`. -/
structure ParsedPort where
  unit : Int
  module : Int
  num : Int
  str : String
deriving DecidableEq, Repr

/-- Parsing step of `_group_ports_by_module`: three-component ports parse to
their numeric triple, a `ValueError` on any component falls back to
`(0, 0, 0, p)`, and a port without exactly three components is silently
dropped (no append, no exception). -/
def parsePortEntry (p : String) : Option ParsedPort :=
  match pySplitChar '/' p with
  | [a, b, c] =>
    match pyInt? a, pyInt? b, pyInt? c with
    | some ua, some mb, some nc =>
        some { unit := ua, module := mb, num := nc, str := p }
    | _, _, _ => some { unit := 0, module := 0, num := 0, str := p }
  | _ => none

/-- Strict lexicographic order on the numeric key `(unit, module, num)`,
matching Python's tuple sort key. -/
def ppLt (a b : ParsedPort) : Bool :=
  a.unit < b.unit || (a.unit == b.unit && (a.module < b.module ||
    (a.module == b.module && a.num < b.num)))

/-- Stable insertion into a key-sorted list (a new element goes before
key-equal ones already present only if strictly smaller — combined with
`sortPP`'s right fold this reproduces Python's stable sort). -/
def insertPP (x : ParsedPort) : List ParsedPort → List ParsedPort
  | [] => [x]
  | y :: ys => if ppLt y x then y :: insertPP x ys else x :: y :: ys

/-- Python `parsed.sort(key=lambda x: (x[0], x[1], x[2]))` (stable). -/
def sortPP : List ParsedPort → List ParsedPort
  | [] => []
  | x :: xs => insertPP x (sortPP xs)

/-- Strict lexicographic order on `(unit, module)` keys. -/
def keyLt2 (a b : Int × Int) : Bool :=
  a.1 < b.1 || (a.1 == b.1 && a.2 < b.2)

/-- Insertion for `sortKeys`. -/
def insertKey2 (x : Int × Int) : List (Int × Int) → List (Int × Int)
  | [] => [x]
  | y :: ys => if keyLt2 y x then y :: insertKey2 x ys else x :: y :: ys

/-- Python `sorted(module_groups.items())` key order. -/
def sortKeys : List (Int × Int) → List (Int × Int)
  | [] => []
  | x :: xs => insertKey2 x (sortKeys xs)

/-- Distinct `(unit, module)` keys of the sorted entries, in Python's sorted
iteration order over `module_groups.items()`. -/
def groupKeys (l : List ParsedPort) : List (Int × Int) :=
  sortKeys ((l.map (fun p => (p.unit, p.module))).dedup)

/-- Entries of one `(unit, module)` group, in their sorted order. -/
def groupFor (l : List ParsedPort) (k : Int × Int) : List ParsedPort :=
  l.filter (fun p => p.unit == k.1 && p.module == k.2)

/-- Inner `while` of `_group_ports_by_module`: extend the current run while
the next entry's position is exactly the previous one plus one; returns the
run's last entry and the remaining list. -/
def takeRun (prev : ParsedPort) : List ParsedPort → ParsedPort × List ParsedPort
  | [] => (prev, [])
  | y :: ys => if y.num == prev.num + 1 then takeRun y ys else (prev, y :: ys)

/-- Outer `while` of `_group_ports_by_module`, with an explicit fuel (the
fuel never runs out when it starts at the list length, as `takeRun` only
consumes elements). -/
def buildRunsFuel : Nat → List ParsedPort → List (ParsedPort × ParsedPort)
  | 0, _ => []
  | _, [] => []
  | fuel + 1, x :: rest =>
    let s := takeRun x rest
    (x, s.1) :: buildRunsFuel fuel s.2

/-- Consecutive-run decomposition of a group's entries. -/
def buildRuns (l : List ParsedPort) : List (ParsedPort × ParsedPort) :=
  buildRunsFuel l.length l

/-- Range token `f"{start} to {end}"`. -/
def runToken (r : ParsedPort × ParsedPort) : String :=
  r.1.str ++ " to " ++ r.2.str

/-- Method `CommandGenerator._group_ports_by_module` from
`config_engine/generator.py`. -/
def groupPortsByModule (ports : List String) : List String :=
  if ports = [] then []
  else
    let sorted := sortPP (ports.filterMap parsePortEntry)
    (groupKeys sorted).map (fun k =>
      joinSep " " ((buildRuns (groupFor sorted k)).map runToken))

/-- Method `CommandGenerator._brocade_vlan_commands` from
`config_engine/generator.py`. -/
def brocadeVlanCommands (change : VLANChange) : List String :=
  match change.change_type with
  | .create =>
    let vlan_name :=
      match change.desired_name with
      | some n => if n ≠ "" then n else "VLAN" ++ toString change.vlan_id
      | none => "VLAN" ++ toString change.vlan_id
    ["vlan " ++ toString change.vlan_id ++ " name " ++ vlan_name ++
      " by port"] ++
    (groupPortsByModule change.ports_to_add_untagged).map
      (fun s => "untagged ethe " ++ s) ++
    (groupPortsByModule change.ports_to_add_tagged).map
      (fun s => "tagged ethe " ++ s) ++
    ["exit"]
  | .delete => ["no vlan " ++ toString change.vlan_id]
  | .modify =>
    ["vlan " ++ toString change.vlan_id] ++
    (groupPortsByModule change.ports_to_remove_untagged).map
      (fun s => "no untagged ethe " ++ s) ++
    (groupPortsByModule change.ports_to_remove_tagged).map
      (fun s => "no tagged ethe " ++ s) ++
    (groupPortsByModule change.ports_to_add_untagged).map
      (fun s => "untagged ethe " ++ s) ++
    (groupPortsByModule change.ports_to_add_tagged).map
      (fun s => "tagged ethe " ++ s) ++
    ["exit"]
  | .no_change => []

/-- Method `CommandGenerator._brocade_port_commands` from
`config_engine/generator.py`. -/
def brocadePortCommands (change : PortChange) : List String :=
  ["interface ethe " ++ change.port_name] ++
  (match change.enabled with
   | some true => ["enable"]
   | some false => ["disable"]
   | none => []) ++
  (match change.description with
   | some d => if d ≠ "" then ["port-name \"" ++ d ++ "\""] else []
   | none => []) ++
  (match change.speed with
   | some s =>
      if s = "auto" then ["speed-duplex auto"]
      else if s = "10G" then ["speed-duplex 10g-full"]
      else if s = "1G" then ["speed-duplex 1000-full"]
      else if s = "100M" then ["speed-duplex 100-full"]
      else []
   | none => []) ++
  ["exit"]

/-- Method `CommandGenerator._generate_brocade_rollback` from
`config_engine/generator.py`. -/
def generateBrocadeRollback (diff : DiffResult) : List String :=
  (diff.vlan_changes.reverse.map (fun change =>
    match change.change_type with
    | .create => ["no vlan " ++ toString change.vlan_id]
    | .delete =>
        ["! Cannot rollback VLAN " ++ toString change.vlan_id ++ " deletion"]
    | .modify =>
        ["vlan " ++ toString change.vlan_id] ++
        (groupPortsByModule change.ports_to_add_untagged).map
          (fun s => "no untagged ethe " ++ s) ++
        (groupPortsByModule change.ports_to_add_tagged).map
          (fun s => "no tagged ethe " ++ s) ++
        (groupPortsByModule change.ports_to_remove_untagged).map
          (fun s => "untagged ethe " ++ s) ++
        (groupPortsByModule change.ports_to_remove_tagged).map
          (fun s => "tagged ethe " ++ s) ++
        ["exit"]
    | .no_change => [])).flatten

/-- Method `CommandGenerator._generate_brocade` from
`config_engine/generator.py`. -/
def generateBrocade (diff : DiffResult) (save_config : Bool) : CommandPlan :=
  let pre := (diff.vlan_changes.map (fun change =>
    if change.change_type = .modify then
      (change.ports_to_remove_tagged.map (fun port =>
        ["interface ethe " ++ port, "no dual-mode", "exit"])).flatten
    else [])).flatten
  let main := (diff.vlan_changes.map brocadeVlanCommands).flatten ++
    (diff.port_changes.map brocadePortCommands).flatten
  let post := if save_config ∧ main ≠ [] then ["write memory"] else []
  { pre_commands := pre, main_commands := main, post_commands := post,
    rollback_commands := generateBrocadeRollback diff }

/-- Canonical Brocade port identifier: exactly three `/`-separated
non-empty digit components. -/
def isCanonicalPort (s : String) : Bool :=
  match pySplitChar '/' s with
  | [a, b, c] => isDigits a.data && isDigits b.data && isDigits c.data
  | _ => false

/-- Rank of a Brocade main-phase command inside a VLAN block, in the
emission order the generator uses for a modify (header, removes untagged,
removes tagged, adds untagged, adds tagged, exit). -/
def brocadeCmdRank (s : String) : Nat :=
  if strStarts "no untagged ethe " s then 1
  else if strStarts "no tagged ethe " s then 2
  else if strStarts "untagged ethe " s then 3
  else if strStarts "tagged ethe " s then 4
  else if strStarts "vlan " s then 0
  else 5

/-! Embedding of `ConfigExecutor` from `config_engine/executor.py`. -/

/-- Dataclass `ExecuteOptions` from `config_engine/schema.py`. -/
structure ExecuteOptions where
  dry_run : Bool := false
  stop_on_error : Bool := true
  rollback_on_error : Bool := false
  audit_context : String := ""
  user : Option String := none
deriving DecidableEq, Repr

/-- Dataclass `ExecuteResult` from `config_engine/schema.py`. -/
structure ExecuteResult where
  success : Bool := false
  dry_run : Bool := false
  changes_made : List String := []
  commands_executed : List String := []
  error : Option String := none
  error_context : Option String := none
  recovery_attempts : List String := []
  requires_ai_intervention : Bool := false
  rollback_performed : Bool := false
deriving DecidableEq, Repr

/-- Observable device interactions of one `execute` call: opening the
device session (`async with device:`) and the commands sent over it. -/
inductive DeviceEvent where
  | openSession
  | exec (cmd : String)
  | batch (cmds : List String) (stop_on_error : Bool)
deriving DecidableEq, Repr

/-- Behaviour oracle for the connected device: responses of
`device.execute` and `device.execute_config_batch`. -/
structure DeviceModel where
  execResp : String → Bool × String
  batchResp : List String → Bool → Bool × String

/-- Method `ConfigExecutor._extract_changes` from
`config_engine/executor.py`. -/
def extractChanges (diff : DiffResult) : List String :=
  (diff.vlan_changes.filterMap (fun change =>
    match change.change_type with
    | .create => some ("Created VLAN " ++ toString change.vlan_id)
    | .delete => some ("Deleted VLAN " ++ toString change.vlan_id)
    | .modify =>
      let parts :=
        (if change.ports_to_add_untagged ≠ [] then
          ["added untagged: " ++ joinComma change.ports_to_add_untagged]
         else []) ++
        (if change.ports_to_remove_untagged ≠ [] then
          ["removed untagged: " ++ joinComma change.ports_to_remove_untagged]
         else []) ++
        (if change.ports_to_add_tagged ≠ [] then
          ["added tagged: " ++ joinComma change.ports_to_add_tagged]
         else []) ++
        (if change.ports_to_remove_tagged ≠ [] then
          ["removed tagged: " ++ joinComma change.ports_to_remove_tagged]
         else [])
      some ("Modified VLAN " ++ toString change.vlan_id ++ ": " ++
        joinSep "; " parts)
    | .no_change => none)) ++
  (diff.port_changes.map (fun change =>
    let parts :=
      (match change.enabled with
       | some b => ["enabled=" ++ (if b then "True" else "False")]
       | none => []) ++
      (match change.description with
       | some d => if d ≠ "" then ["description=" ++ d] else []
       | none => []) ++
      (match change.speed with
       | some s => if s ≠ "" then ["speed=" ++ s] else []
       | none => [])
    "Configured port " ++ change.port_name ++ ": " ++ joinComma parts))

/-- Method `ConfigExecutor._dry_run` from `config_engine/executor.py`. -/
def dryRun (plan : CommandPlan) (diff : DiffResult) (result : ExecuteResult) :
    ExecuteResult :=
  { result with
    success := true,
    dry_run := true,
    commands_executed :=
      (plan.pre_commands ++ plan.main_commands ++ plan.post_commands).map
        (fun cmd => "[DRY-RUN] " ++ cmd),
    changes_made :=
      (extractChanges diff).map (fun change => "[PREVIEW] " ++ change) }

/-- Method `ConfigExecutor._execute_commands`: run commands one at a time,
stopping at the first failure, collecting the device events; the exception
branch cannot fire in the model (the oracle is total). -/
def execCommands (dev : DeviceModel) (phase : String) :
    List String → List String → (Bool × String) × List DeviceEvent
  | [], outputs => ((true, joinSep "\n" outputs), [])
  | cmd :: rest, outputs =>
    let r := dev.execResp cmd
    if r.1 then
      let next := execCommands dev phase rest (outputs ++ [r.2])
      (next.1, DeviceEvent.exec cmd :: next.2)
    else
      ((false, phase ++ " command '" ++ cmd ++ "' failed: " ++ r.2),
       [DeviceEvent.exec cmd])

/-- Method `ConfigExecutor.execute` from `config_engine/executor.py`,
returning the result together with the trace of device interactions.  The
dry-run branch returns before `async with device:`, so its trace is empty;
the audit write in the `finally` block is file I/O, not a device
interaction, and is not traced.  Exceptions do not arise because the device
oracle is total. -/
def executorExecute (dev : DeviceModel) (plan : CommandPlan)
    (diff : DiffResult) (options : ExecuteOptions) :
    ExecuteResult × List DeviceEvent :=
  let result : ExecuteResult := { dry_run := options.dry_run }
  if options.dry_run then
    (dryRun plan diff result, [])
  else
    let pre :=
      if plan.pre_commands ≠ [] then
        execCommands dev "pre" plan.pre_commands []
      else ((true, ""), [])
    let events1 := DeviceEvent.openSession :: pre.2
    if ¬ pre.1.1 then
      ({ result with
          success := false,
          commands_executed := plan.pre_commands,
          error := some ("Pre-command failed: " ++ pre.1.2),
          error_context := some pre.1.2 }, events1)
    else if plan.main_commands ≠ [] then
      let br := dev.batchResp plan.main_commands options.stop_on_error
      let events2 := events1 ++
        [DeviceEvent.batch plan.main_commands options.stop_on_error]
      if ¬ br.1 then
        if options.rollback_on_error ∧ plan.rollback_commands ≠ [] then
          let rb := dev.batchResp plan.rollback_commands false
          ({ result with
              success := false,
              commands_executed := plan.pre_commands ++ plan.main_commands,
              error := some "Main command batch failed",
              error_context := some br.2,
              requires_ai_intervention := true,
              rollback_performed := rb.1,
              recovery_attempts :=
                [if rb.1 then "Rollback successful"
                 else "Rollback failed: " ++ rb.2] },
           events2 ++ [DeviceEvent.batch plan.rollback_commands false])
        else
          ({ result with
              success := false,
              commands_executed := plan.pre_commands ++ plan.main_commands,
              error := some "Main command batch failed",
              error_context := some br.2,
              requires_ai_intervention := true }, events2)
      else
        let post :=
          if plan.post_commands ≠ [] then
            execCommands dev "post" plan.post_commands []
          else ((true, ""), [])
        ({ result with
            success := true,
            commands_executed :=
              plan.pre_commands ++ plan.main_commands ++ plan.post_commands,
            changes_made := extractChanges diff }, events2 ++ post.2)
    else
      let post :=
        if plan.post_commands ≠ [] then
          execCommands dev "post" plan.post_commands []
        else ((true, ""), [])
      ({ result with
          success := true,
          commands_executed := plan.pre_commands ++ plan.post_commands,
          changes_made := extractChanges diff }, events1 ++ post.2)

/-! Embedding of `BrocadeDevice._parse_port_line` from `devices/brocade.py`. -/

/-- Python whitespace, for `str.strip()` and `str.split()`. -/
def isPySpace (c : Char) : Bool :=
  c = ' ' || c = '\t' || c = '\n' || c = '\r' || c = '\x0b' || c = '\x0c'

/-- Python `s.strip()`. -/
def stripChars (l : List Char) : List Char :=
  ((l.dropWhile isPySpace).reverse.dropWhile isPySpace).reverse

/-- Suffix after the first occurrence of the (non-empty) separator, if it
occurs. -/
def afterFirstSub (sep : List Char) : List Char → Option (List Char)
  | [] => none
  | x :: xs =>
    if listStarts sep (x :: xs) then some (List.drop sep.length (x :: xs))
    else afterFirstSub sep xs

/-- Fuel-driven iteration for `afterLastSub` (each found occurrence strictly
shrinks the remaining suffix, so the input length is enough fuel). -/
def afterLastSubFuel (sep : List Char) : Nat → List Char → List Char
  | 0, l => l
  | fuel + 1, l =>
    match afterFirstSub sep l with
    | none => l
    | some rest => afterLastSubFuel sep fuel rest

/-- Python `line.split(sep)[-1]` for a non-empty separator: the suffix after
the last occurrence of `sep`, or the whole string when absent. -/
def afterLastSub (sep l : List Char) : List Char :=
  afterLastSubFuel sep l.length l

/-- Attempted match of the regex `\(U\d+/M(\d+)\)` anchored at the head of
the text, returning the captured module digits (`\d+` and the following
literal cannot overlap, so maximal munch is exact). -/
def matchModuleHead : List Char → Option (List Char)
  | '(' :: 'U' :: rest =>
    let ds1 := rest.takeWhile (fun c => c.isDigit)
    let rest1 := rest.dropWhile (fun c => c.isDigit)
    if ds1 = [] then none
    else
      match rest1 with
      | '/' :: 'M' :: rest2 =>
        let ds2 := rest2.takeWhile (fun c => c.isDigit)
        let rest3 := rest2.dropWhile (fun c => c.isDigit)
        if ds2 = [] then none
        else
          match rest3 with
          | ')' :: _ => some ds2
          | _ => none
      | _ => none
  | _ => none

/-- Python `re.search(r"\(U\d+/M(\d+)\)", text)`: the leftmost match's
captured module digits. -/
def searchModule : List Char → Option (List Char)
  | [] => none
  | x :: xs =>
    match matchModuleHead (x :: xs) with
    | some ds => some ds
    | none => searchModule xs

/-- Remainder after a match of `[^)]+\)` (at least one non-`)` character,
then the closing parenthesis). -/
def skipToClose : List Char → Option (List Char)
  | [] => none
  | ')' :: rest => some rest
  | _ :: rest => skipToClose rest

/-- Attempted match of `[^)]+\)` after an opening parenthesis. -/
def afterParenMatch : List Char → Option (List Char)
  | [] => none
  | ')' :: _ => none
  | _ :: rest => skipToClose rest

/-- Fuel-driven scanner for `re.sub(r"\([^)]+\)", "", text)`: remove every
non-overlapping leftmost match (an unmatched `(` is kept). -/
def removeParensFuel : Nat → List Char → List Char
  | 0, l => l
  | _ + 1, [] => []
  | fuel + 1, '(' :: rest =>
    (match afterParenMatch rest with
     | some rem => removeParensFuel fuel rem
     | none => '(' :: removeParensFuel fuel rest)
  | fuel + 1, c :: rest => c :: removeParensFuel fuel rest

/-- Python `re.sub(r"\([^)]+\)", "", text)`. -/
def removeParens (l : List Char) : List Char := removeParensFuel l.length l

/-- Python `text.split()` (whitespace runs, no empty parts). -/
def wsSplitAux : List Char → List Char → List (List Char)
  | [], acc => if acc = [] then [] else [acc.reverse]
  | c :: rest, acc =>
    if isPySpace c then
      (if acc = [] then wsSplitAux rest [] else acc.reverse :: wsSplitAux rest [])
    else wsSplitAux rest (c :: acc)

/-- Python `text.split()`. -/
def wsSplit (l : List Char) : List (List Char) := wsSplitAux l []

/-- Method `BrocadeDevice._parse_port_line` from `devices/brocade.py`: note
the emitted identifier hardcodes unit `1` (`f"1/{module}/{part}"`) — the
`U<unit>` part of the discriminator is matched but never captured. -/
def parsePortLine (line pre : String) : Int × List String :=
  let text0 := stripChars (afterLastSub pre.data line.data)
  if text0.map Char.toLower = "none".data ∨ text0 = [] then (0, [])
  else
    let moduleDigits := searchModule text0
    let module : Int :=
      match moduleDigits with
      | some ds => ((digitsVal? ds).getD 0 : Nat)
      | none => 1
    let text1 :=
      match moduleDigits with
      | some _ => stripChars (removeParens text0)
      | none => text0
    (module, (wsSplit text1).filterMap (fun part =>
      if isDigits part then
        some ("1/" ++ toString module ++ "/" ++ String.mk part)
      else none))

/-! Embedding of the Brocade batch-output parsing from `devices/brocade.py`
(`_has_error`, `_parse_batch_output`, the per-command results of
`execute_batch`). -/

/-- Substring test (Python `needle in hay`). -/
def containsSub (needle : List Char) : List Char → Bool
  | [] => listStarts needle []
  | x :: xs => listStarts needle (x :: xs) || containsSub needle xs

/-- Python `s.endswith(suffix)`. -/
def strEndsL (l suffix : List Char) : Bool :=
  listStarts suffix.reverse l.reverse

/-- Python `s.lower()` on character lists. -/
def lowerData (l : List Char) : List Char := l.map Char.toLower

/-- Class attribute `BrocadeDevice.ERROR_PATTERNS`. -/
def ERROR_PATTERNS : List String :=
  ["Invalid input", "Error:", "Error -", "error:", "not found",
   "Please disable", "Please use a different", "cannot ", "denied",
   "failed", "Incomplete command", "is currently reserved"]

/-- Class attribute `BrocadeDevice.INFO_PATTERNS`. -/
def INFO_PATTERNS : List String :=
  ["already a member", "Added untagged port", "Added tagged port",
   "Removed untagged port", "Removed tagged port"]

/-- Test whether a (lowercased) line matches any info pattern. -/
def anyInfo (lineL : List Char) : Bool :=
  INFO_PATTERNS.any (fun i => containsSub (lowerData i.data) lineL)

/-- Inner loop of `_has_error`: first line containing the (lowercased)
pattern that is not suppressed by an info pattern, stripped. -/
def findErrLine (patL : List Char) : List (List Char) → Option (List Char)
  | [] => none
  | l :: rest =>
    if containsSub patL (lowerData l) ∧ ¬ anyInfo (lowerData l) = true then
      some (stripChars l)
    else findErrLine patL rest

/-- Pattern loop of `_has_error`. -/
def hasErrorAux (lines : List (List Char)) (outputL : List Char) :
    List String → Option String
  | [] => none
  | pat :: rest =>
    let patL := lowerData pat.data
    if containsSub patL outputL then
      match findErrLine patL lines with
      | some l => some (String.mk l)
      | none => hasErrorAux lines outputL rest
    else hasErrorAux lines outputL rest

/-- Method `BrocadeDevice._has_error` from `devices/brocade.py`. -/
def hasError (output : String) : Option String :=
  hasErrorAux (splitAllChar '\n' output.data) (lowerData output.data)
    ERROR_PATTERNS

/-- Per-command result dict of `_parse_batch_output`. -/
structure BatchEntry where
  command : String
  success : Bool
  output : String
  error : Option String
deriving DecidableEq, Repr

/-- Padding entry appended by the final `while len(results) < len(commands)`
loop of `_parse_batch_output`: success with empty output and no error. -/
def padEntry (c : String) : BatchEntry :=
  { command := c, success := true, output := "", error := none }

/-- Prompt-line test `re.match(r".*Router[#>(\[]", line_stripped)` (a match
exists exactly when one of the four `Router<mark>` substrings occurs). -/
def isPromptLine (l : List Char) : Bool :=
  containsSub "Router#".data l || containsSub "Router>".data l ||
  containsSub "Router(".data l || containsSub "Router[".data l

/-- Scanning loop of `_parse_batch_output` over the output lines, threading
`current_cmd_idx`, `current_output_lines` and `results`; `Sum.inl` is the
early return taken when an error is found with stop-on-error set. -/
def parseBatchScan (stop_on_error : Bool) (commands : List String) :
    List (List Char) → Nat → List String → List BatchEntry →
    (List BatchEntry) ⊕ (List BatchEntry × Nat × List String)
  | [], idx, cur, results => Sum.inr (results, idx, cur)
  | line :: rest, idx, cur, results =>
    let ls := stripChars line
    if idx < commands.length ∧
        (containsSub (commands.getD idx "").data ls ∨
         strEndsL ls (commands.getD idx "").data) then
      if idx > 0 ∧ cur ≠ [] then
        let cmd_output := joinSep "\n" cur
        let err := hasError cmd_output
        let results2 := results ++
          [{ command := commands.getD (idx - 1) "",
             success := err.isNone,
             output := String.mk (stripChars cmd_output.data),
             error := err }]
        if err.isSome ∧ stop_on_error then
          Sum.inl (results2 ++ (commands.drop idx).map (fun c =>
            { command := c, success := false, output := "",
              error := some "Not executed (previous command failed)" }))
        else
          parseBatchScan stop_on_error commands rest (idx + 1) [] results2
      else
        parseBatchScan stop_on_error commands rest (idx + 1) [] results
    else
      if ls ≠ [] ∧ ¬ isPromptLine ls = true then
        parseBatchScan stop_on_error commands rest idx
          (cur ++ [String.mk ls]) results
      else
        parseBatchScan stop_on_error commands rest idx cur results

/-- Results after the scan and the trailing-command finalization of
`_parse_batch_output`, before the padding loop; `Sum.inl` carries the early
return (which Python takes without padding). -/
def parseBatchCore (output : String) (commands : List String)
    (stop_on_error : Bool) : (List BatchEntry) ⊕ (List BatchEntry) :=
  match parseBatchScan stop_on_error commands
      (splitAllChar '\n' output.data) 0 [] [] with
  | Sum.inl earlyResults => Sum.inl earlyResults
  | Sum.inr (results, idx, cur) =>
    if idx > 0 then
      let cmd_output := joinSep "\n" cur
      let err := hasError cmd_output
      let last := if idx ≤ commands.length then commands.getD (idx - 1) ""
        else commands.getD (commands.length - 1) ""
      Sum.inr (results ++
        [{ command := last, success := err.isNone,
           output := String.mk (stripChars cmd_output.data), error := err }])
    else Sum.inr results

/-- Method `BrocadeDevice._parse_batch_output` from `devices/brocade.py`. -/
def parseBatchOutput (output : String) (commands : List String)
    (stop_on_error : Bool) : List BatchEntry :=
  match parseBatchCore output commands stop_on_error with
  | Sum.inl earlyResults => earlyResults
  | Sum.inr results =>
    results ++ (commands.drop results.length).map padEntry

/-- Overall success computed by `execute_batch`:
`all(r["success"] for r in results)`. -/
def executeBatchSuccess (results : List BatchEntry) : Bool :=
  results.all (fun r => r.success)

/-- Concrete modify change for exercising C2: the spec's safe-modify
scenario (VLAN 100: remove untagged 1/1/1-2, add untagged 1/1/3-4). -/
def c2wc : VLANChange :=
  { vlan_id := 100, change_type := .modify,
    ports_to_remove_untagged := ["1/1/1", "1/1/2"],
    ports_to_add_untagged := ["1/1/3", "1/1/4"] }

/-- Concrete VLAN intent for exercising C4 (VLAN 100, untagged 1/1/1). -/
def c4v1 : VLANDesiredState := { id := 100, untagged_ports := ["1/1/1"] }

/-- Concrete VLAN intent for exercising C4 (VLAN 200, untagged 1/1/1). -/
def c4v2 : VLANDesiredState := { id := 200, untagged_ports := ["1/1/1"] }

/-- Concrete desired state for exercising C4: port 1/1/1 untagged in two
distinct ensure VLANs. -/
def c4wD : DesiredState :=
  { device_id := "br-a", vlans := [(100, c4v1), (200, c4v2)] }

/-- Concrete desired state for exercising C1: one ensure VLAN whose
memberships match the live state `c1wL`. -/
def c1wD : DesiredState :=
  { device_id := "br-a", vlans := [(7, { id := 7, untagged_ports := ["1/1/1"] })] }

/-- Concrete live state matching `c1wD`. -/
def c1wL : List VLANConfig :=
  [{ id := 7, untagged_ports := ["1/1/1"] }]

/-- Concrete desired state refuting C1 as stated: VLAN 10 ensure-action with
name "A" and no ports. -/
def c1exD : DesiredState :=
  { device_id := "br-a", vlans := [(10, { id := 10, name := some "A" })] }

/-- Concrete live state refuting C1 as stated: VLAN 10 exists with name "B"
and no ports, so memberships agree with `c1exD` but the name differs. -/
def c1exL : List VLANConfig :=
  [{ id := 10, name := "B" }]

end Switchcraft

namespace Switchcraft

/-! Lemmas about the diff engine. -/

theorem pySetDiff_eq_nil_iff (a b : List String) :
    pySetDiff a b = [] ↔ ∀ s ∈ a, s ∈ b := by
  unfold pySetDiff
  rw [List.dedup_eq_nil, List.filter_eq_nil_iff]
  constructor
  · intro h s hs
    have := h s hs
    simpa using this
  · intro h s hs
    simpa using h s hs

theorem diffVlan_some_ensure_eq_none_iff (vid : Int) (dv : VLANDesiredState)
    (lv : VLANConfig) (hact : dv.action = .ensure) :
    diffVlan vid dv (some lv) = none ↔
      ((∀ s, s ∈ lv.untagged_ports ↔ s ∈ dv.untagged_ports) ∧
       (∀ s, s ∈ lv.tagged_ports ↔ s ∈ dv.tagged_ports) ∧
       nameChange dv.name lv.name = false) := by
  simp only [diffVlan, hact]
  constructor
  · intro h
    by_cases hc :
        (!(pySetDiff dv.untagged_ports lv.untagged_ports).isEmpty ||
         !(pySetDiff lv.untagged_ports dv.untagged_ports).isEmpty ||
         !(pySetDiff dv.tagged_ports lv.tagged_ports).isEmpty ||
         !(pySetDiff lv.tagged_ports dv.tagged_ports).isEmpty ||
         nameChange dv.name lv.name) = true
    · rw [if_pos hc] at h
      exact absurd h (by simp)
    · simp only [Bool.or_eq_true, not_or, Bool.not_eq_true, Bool.not_eq_false',
        List.isEmpty_iff, pySetDiff_eq_nil_iff] at hc
      obtain ⟨⟨⟨⟨h1, h2⟩, h3⟩, h4⟩, h5⟩ := hc
      refine ⟨fun s => ⟨fun hs => h2 s hs, fun hs => h1 s hs⟩,
              fun s => ⟨fun hs => h4 s hs, fun hs => h3 s hs⟩, h5⟩
  · rintro ⟨hu, ht, hn⟩
    have hc :
        (!(pySetDiff dv.untagged_ports lv.untagged_ports).isEmpty ||
         !(pySetDiff lv.untagged_ports dv.untagged_ports).isEmpty ||
         !(pySetDiff dv.tagged_ports lv.tagged_ports).isEmpty ||
         !(pySetDiff lv.tagged_ports dv.tagged_ports).isEmpty ||
         nameChange dv.name lv.name) = false := by
      simp only [Bool.or_eq_false_iff, Bool.not_eq_false', List.isEmpty_iff,
        pySetDiff_eq_nil_iff]
      exact ⟨⟨⟨⟨fun s hs => (hu s).mpr hs, fun s hs => (hu s).mp hs⟩,
        fun s hs => (ht s).mpr hs⟩, fun s hs => (ht s).mp hs⟩, hn⟩
    rw [if_neg (by simp [hc])]

theorem diffVlan_eq_none_iff (vid : Int) (dv : VLANDesiredState)
    (cur : Option VLANConfig) :
    diffVlan vid dv cur = none ↔
      (dv.action = .absent ∧ cur = none) ∨
      (dv.action = .ensure ∧ ∃ lv, cur = some lv ∧
        (∀ s, s ∈ lv.untagged_ports ↔ s ∈ dv.untagged_ports) ∧
        (∀ s, s ∈ lv.tagged_ports ↔ s ∈ dv.tagged_ports) ∧
        nameChange dv.name lv.name = false) := by
  cases hact : dv.action with
  | absent =>
    cases cur with
    | none => simp [diffVlan, hact]
    | some lv => simp [diffVlan, hact]
  | ensure =>
    cases cur with
    | none => simp [diffVlan, hact]
    | some lv =>
      rw [diffVlan_some_ensure_eq_none_iff vid dv lv hact]
      constructor
      · intro h
        exact Or.inr ⟨rfl, lv, rfl, h⟩
      · rintro (⟨ha, -⟩ | ⟨-, lv2, hlv, h⟩)
        · cases ha
        · cases hlv; exact h

theorem nameChange_eq_false_iff (dn : Option String) (cn : String) :
    nameChange dn cn = false ↔ ∀ n, dn = some n → n = "" ∨ n = cn := by
  cases dn with
  | none => simp [nameChange]
  | some s =>
    constructor
    · intro h n hn
      injection hn with hn2
      subst hn2
      by_cases he : s = ""
      · exact Or.inl he
      · right
        by_cases hc : s = cn
        · exact hc
        · exfalso
          simp [nameChange, he, hc] at h
    · intro h
      rcases h s rfl with h1 | h1 <;> simp [nameChange, h1]

/-- C1 (amended): for a desired state with no port entries, the diff result
is empty exactly when every desired VLAN is either absent-action and missing
from the live state, or ensure-action with its untagged and tagged
memberships equal (as sets) to the live VLAN's — and, additionally, with its
desired name unset, empty, or equal to the live name.  The original claim
omitted the name condition. -/
theorem C1_diff_empty_iff (L : List VLANConfig) (P : List PortConfig)
    (D : DesiredState) (hports : D.ports = []) :
    (calculate L P D).no_change = true ↔
      ∀ p ∈ D.vlans,
        (p.2.action = .absent ∧ vlanMapGet L p.1 = none) ∨
        (p.2.action = .ensure ∧ ∃ lv, vlanMapGet L p.1 = some lv ∧
          (∀ s, s ∈ lv.untagged_ports ↔ s ∈ p.2.untagged_ports) ∧
          (∀ s, s ∈ lv.tagged_ports ↔ s ∈ p.2.tagged_ports) ∧
          (∀ n, p.2.name = some n → n = "" ∨ n = lv.name)) := by
  simp only [DiffResult.no_change, calculate, hports, List.filterMap_nil,
    List.isEmpty_nil, Bool.and_true, List.isEmpty_iff, List.filterMap_eq_nil_iff]
  constructor
  · intro h p hp
    have := h p hp
    rcases (diffVlan_eq_none_iff p.1 p.2 (vlanMapGet L p.1)).mp this with
      ⟨ha, hc⟩ | ⟨ha, lv, hlv, hu, ht, hn⟩
    · exact Or.inl ⟨ha, hc⟩
    · exact Or.inr ⟨ha, lv, hlv, hu, ht,
        (nameChange_eq_false_iff p.2.name lv.name).mp hn⟩
  · intro h p hp
    apply (diffVlan_eq_none_iff p.1 p.2 (vlanMapGet L p.1)).mpr
    rcases h p hp with ⟨ha, hc⟩ | ⟨ha, lv, hlv, hu, ht, hn⟩
    · exact Or.inl ⟨ha, hc⟩
    · exact Or.inr ⟨ha, lv, hlv, hu, ht,
        (nameChange_eq_false_iff p.2.name lv.name).mpr hn⟩

/-- C1 witness: the equivalence applied at a concrete desired/live pair on
which both sides hold (one ensure VLAN whose memberships match the live
state). -/
theorem C1_diff_empty_iff_witness :
    c1wD.ports = [] ∧
    ((calculate c1wL [] c1wD).no_change = true ↔
      ∀ p ∈ c1wD.vlans,
        (p.2.action = .absent ∧ vlanMapGet c1wL p.1 = none) ∨
        (p.2.action = .ensure ∧ ∃ lv, vlanMapGet c1wL p.1 = some lv ∧
          (∀ s, s ∈ lv.untagged_ports ↔ s ∈ p.2.untagged_ports) ∧
          (∀ s, s ∈ lv.tagged_ports ↔ s ∈ p.2.tagged_ports) ∧
          (∀ n, p.2.name = some n → n = "" ∨ n = lv.name))) :=
  ⟨rfl, C1_diff_empty_iff c1wL [] c1wD rfl⟩

/-- C1 counterexample: with desired VLAN 10 ensure-action named "A" and live
VLAN 10 named "B" with identical (empty) memberships, the right-hand side of
the claim as stated holds, yet the diff is non-empty (the engine emits a
modify for the name change alone), so the claimed equivalence fails. -/
theorem C1_counterexample :
    ¬ ((calculate c1exL [] c1exD).no_change = true ↔
       ∀ p ∈ c1exD.vlans,
         (p.2.action = .absent ∧ vlanMapGet c1exL p.1 = none) ∨
         (p.2.action = .ensure ∧ ∃ lv, vlanMapGet c1exL p.1 = some lv ∧
           (∀ s, s ∈ lv.untagged_ports ↔ s ∈ p.2.untagged_ports) ∧
           (∀ s, s ∈ lv.tagged_ports ↔ s ∈ p.2.tagged_ports))) := by
  intro h
  have hrhs : ∀ p ∈ c1exD.vlans,
         (p.2.action = .absent ∧ vlanMapGet c1exL p.1 = none) ∨
         (p.2.action = .ensure ∧ ∃ lv, vlanMapGet c1exL p.1 = some lv ∧
           (∀ s, s ∈ lv.untagged_ports ↔ s ∈ p.2.untagged_ports) ∧
           (∀ s, s ∈ lv.tagged_ports ↔ s ∈ p.2.tagged_ports)) := by
    intro p hp
    simp only [c1exD, List.mem_singleton] at hp
    subst hp
    refine Or.inr ⟨rfl, ⟨{ id := 10, name := "B" }, ?_, ?_, ?_⟩⟩
    · rfl
    · intro s; simp [c1exD]
    · intro s; simp [c1exD]
  have hempty := h.mpr hrhs
  have hfalse : (calculate c1exL [] c1exD).no_change = false := by decide
  rw [hempty] at hfalse
  cases hfalse

/-! Lemmas about the Zyxel password encoder. -/

theorem toDigits_singleton (n : Nat) (h : n < 10) :
    Nat.toDigits 10 n = [Nat.digitChar n] := by
  have hd : n / 10 = 0 := Nat.div_eq_of_lt h
  have hm : n % 10 = n := Nat.mod_eq_of_lt h
  simp [Nat.toDigits, Nat.toDigitsCore, hd, hm]

theorem zyxelChunk_eq (rnd : Nat → Char) (pwd : List Char) (i ci : Nat)
    (hlen : pwd.length < 100) (hi : 1 ≤ i)
    (hci : ci = pwd.length - min pwd.length ((i - 1) / 5)) :
    zyxelChunk rnd pwd i ci =
      ([zyxelExpected rnd pwd i],
       pwd.length - min pwd.length (i / 5)) := by
  by_cases h1 : i % 5 = 0 ∧ 0 < ci
  · have hq : i / 5 ≤ pwd.length := by omega
    have e1 : ci - 1 = pwd.length - i / 5 := by omega
    have e2 : pwd.length - min pwd.length (i / 5) = pwd.length - i / 5 := by
      omega
    rw [zyxelChunk, if_pos h1, zyxelExpected, if_pos ⟨h1.1, hq⟩, e1, e2]
  · rw [zyxelChunk, if_neg h1]
    by_cases h2 : i = 123
    · subst h2
      have hm : ¬ ((123 : Nat) % 5 = 0 ∧ 123 / 5 ≤ pwd.length) := by omega
      rw [zyxelExpected, if_neg hm, if_pos rfl]
      have hinv : ci = pwd.length - min pwd.length (123 / 5) := by omega
      by_cases hsmall : pwd.length < 10
      · rw [if_pos hsmall, if_pos hsmall, hinv]; simp
      · rw [if_neg hsmall, if_neg hsmall, hinv, pyRepr,
          toDigits_singleton (pwd.length / 10) (by omega)]
        simp
    · by_cases h3 : i = 289
      · subst h3
        have hm : ¬ ((289 : Nat) % 5 = 0 ∧ 289 / 5 ≤ pwd.length) := by omega
        rw [zyxelExpected, if_neg hm, if_neg h2, if_pos rfl]
        have hinv : ci = pwd.length - min pwd.length (289 / 5) := by omega
        rw [hinv, pyRepr, toDigits_singleton (pwd.length % 10) (by omega)]
        simp
      · rw [if_neg h2, if_neg h3]
        have hm : ¬ (i % 5 = 0 ∧ i / 5 ≤ pwd.length) := by
          rcases Decidable.not_and_iff_or_not.mp h1 with h | h
          · exact fun hc => h hc.1
          · omega
        rw [zyxelExpected, if_neg hm, if_neg h2, if_neg h3]
        have hinv : ci = pwd.length - min pwd.length (i / 5) := by
          rcases Decidable.not_and_iff_or_not.mp h1 with h | h
          · omega
          · omega
        rw [hinv]

theorem zyxelLoopFrom_eq_map (rnd : Nat → Char) (pwd : List Char)
    (hlen : pwd.length < 100) :
    ∀ (fuel i ci : Nat), 1 ≤ i →
      ci = pwd.length - min pwd.length ((i - 1) / 5) →
      zyxelLoopFrom rnd pwd fuel i ci =
        (List.range fuel).map (fun k => zyxelExpected rnd pwd (i + k)) := by
  intro fuel
  induction fuel with
  | zero => intro i ci _ _; rfl
  | succ fuel ih =>
    intro i ci hi hci
    rw [List.range_succ_eq_map, List.map_cons, List.map_map]
    show zyxelLoopFrom rnd pwd (fuel + 1) i ci = _
    rw [zyxelLoopFrom, zyxelChunk_eq rnd pwd i ci hlen hi hci]
    have hinv : pwd.length - min pwd.length (i / 5)
        = pwd.length - min pwd.length ((i + 1 - 1) / 5) := by
      simp
    rw [ih (i + 1) _ (by omega) hinv]
    have hfun : ((fun k => zyxelExpected rnd pwd (i + k)) ∘ Nat.succ)
        = fun k => zyxelExpected rnd pwd ((i + 1) + k) := by
      funext k
      show zyxelExpected rnd pwd (i + Nat.succ k) = _
      have : i + Nat.succ k = (i + 1) + k := by omega
      rw [this]
    rw [hfun]
    simp

/-- C9 (amended): for every password shorter than 100 characters and every
filler oracle (modelling `random.choice(possible)`), the encoder produces a
string of length `321 - len(password)` — not 321 characters as claimed —
whose 1-indexed position `i` holds the next password character read from the
end backwards when `i` is a multiple of 5 and characters remain, the tens
digit of the length (or '0' below 10) at 123, the ones digit at 289, and the
oracle's (alphanumeric) filler draw otherwise; the loop runs exactly
`321 - len(password)` iterations, one output character each. -/
theorem C9_zyxel_encode (rnd : Nat → Char) (pwd : List Char)
    (hlen : pwd.length < 100) :
    zyxelEncodePassword rnd pwd =
      (List.range (321 - pwd.length)).map
        (fun k => zyxelExpected rnd pwd (k + 1)) ∧
    (zyxelEncodePassword rnd pwd).length = 321 - pwd.length := by
  have hloop := zyxelLoopFrom_eq_map rnd pwd hlen ((322 - pwd.length) - 1)
    1 pwd.length (le_refl 1) (by simp)
  have hfuel : (322 - pwd.length) - 1 = 321 - pwd.length := by omega
  have hfun : (fun k => zyxelExpected rnd pwd (1 + k))
      = fun k => zyxelExpected rnd pwd (k + 1) := by
    funext k
    rw [Nat.add_comm]
  constructor
  · rw [zyxelEncodePassword, hloop, hfuel, hfun]
  · rw [zyxelEncodePassword, hloop, List.length_map, List.length_range, hfuel]

/-- C9 witness: the characterization applied to the two-character password
"ab" with a constant filler oracle. -/
theorem C9_zyxel_encode_witness :
    (('a' :: ['b']).length < 100) ∧
    (zyxelEncodePassword (fun _ => 'Z') ('a' :: ['b']) =
      (List.range (321 - ('a' :: ['b']).length)).map
        (fun k => zyxelExpected (fun _ => 'Z') ('a' :: ['b']) (k + 1)) ∧
    (zyxelEncodePassword (fun _ => 'Z') ('a' :: ['b'])).length
        = 321 - ('a' :: ['b']).length) :=
  ⟨by decide, C9_zyxel_encode (fun _ => 'Z') ('a' :: ['b']) (by decide)⟩

/-! String-prefix toolkit. -/

theorem strDataAppend (s t : String) : (s ++ t).data = s.data ++ t.data := by
  cases s; cases t; rfl

theorem listStarts_append (p q x : List Char) (h : p.length ≤ q.length) :
    listStarts p (q ++ x) = listStarts p q := by
  induction p generalizing q with
  | nil => rfl
  | cons c cs ih =>
    cases q with
    | nil => simp at h
    | cons b bs =>
      show (c == b && listStarts cs (bs ++ x)) = (c == b && listStarts cs bs)
      rw [ih bs (by simpa using h)]

theorem listStarts_append_false (p q x : List Char) (i : Nat)
    (hip : i < p.length) (hiq : i < q.length)
    (hne : p.getD i ' ' ≠ q.getD i ' ') :
    listStarts p (q ++ x) = false := by
  induction i generalizing p q with
  | zero =>
    cases p with
    | nil => simp at hip
    | cons a as =>
      cases q with
      | nil => simp at hiq
      | cons b bs =>
        show (a == b && listStarts as (bs ++ x)) = false
        have hab : a ≠ b := by simpa using hne
        simp [hab]
  | succ n ih =>
    cases p with
    | nil => simp at hip
    | cons a as =>
      cases q with
      | nil => simp at hiq
      | cons b bs =>
        show (a == b && listStarts as (bs ++ x)) = false
        rw [ih as bs (by simpa using hip) (by simpa using hiq)
          (by simpa using hne)]
        simp

theorem strStarts_append (p q x : String) (h : p.data.length ≤ q.data.length) :
    strStarts p (q ++ x) = strStarts p q := by
  rw [strStarts, strStarts, strDataAppend, listStarts_append _ _ _ h]

theorem filter_notmem_ne_nil (l m : List String) :
    (l.dedup.filter (fun s => !(m.dedup.contains s))) ≠ [] ↔
      ∃ p ∈ l, p ∉ m := by
  rw [Ne, List.filter_eq_nil_iff]
  push_neg
  constructor
  · rintro ⟨x, hx, hpx⟩
    rw [List.mem_dedup] at hx
    refine ⟨x, hx, ?_⟩
    simpa using hpx
  · rintro ⟨x, hx, hxm⟩
    refine ⟨x, List.mem_dedup.mpr hx, ?_⟩
    simpa using hxm

/-! Lemmas about the Brocade port grouping (C3). -/

theorem takeRun_length (x : ParsedPort) (rest : List ParsedPort) :
    (takeRun x rest).2.length ≤ rest.length := by
  induction rest generalizing x with
  | nil => simp [takeRun]
  | cons y ys ih =>
    rw [takeRun]
    by_cases hy : y.num == x.num + 1
    · rw [if_pos hy]
      exact le_trans (ih y) (by simp)
    · rw [if_neg hy]

theorem takeRun_end_ge (x : ParsedPort) (rest : List ParsedPort) :
    x.num ≤ (takeRun x rest).1.num := by
  induction rest generalizing x with
  | nil => simp [takeRun]
  | cons y ys ih =>
    rw [takeRun]
    by_cases hy : y.num == x.num + 1
    · rw [if_pos hy]
      have := ih y
      have h2 : y.num = x.num + 1 := by simpa using hy
      omega
    · rw [if_neg hy]

theorem takeRun_end_mem (x : ParsedPort) (rest : List ParsedPort) :
    (takeRun x rest).1 ∈ x :: rest := by
  induction rest generalizing x with
  | nil => simp [takeRun]
  | cons y ys ih =>
    rw [takeRun]
    by_cases hy : y.num == x.num + 1
    · rw [if_pos hy]
      rcases List.mem_cons.mp (ih y) with h | h
      · rw [h]; simp
      · simp [h]
    · rw [if_neg hy]
      simp

theorem takeRun_drop_sub (x : ParsedPort) (rest : List ParsedPort) :
    ∀ z ∈ (takeRun x rest).2, z ∈ rest := by
  induction rest generalizing x with
  | nil => simp [takeRun]
  | cons y ys ih =>
    rw [takeRun]
    by_cases hy : y.num == x.num + 1
    · rw [if_pos hy]
      intro z hz
      exact List.mem_cons_of_mem _ (ih y z hz)
    · rw [if_neg hy]
      intro z hz
      exact hz

theorem takeRun_num_iff (x : ParsedPort) (rest : List ParsedPort)
    (pos : Int) :
    (∃ y ∈ x :: rest, y.num = pos) ↔
      (x.num ≤ pos ∧ pos ≤ (takeRun x rest).1.num) ∨
      (∃ y ∈ (takeRun x rest).2, y.num = pos) := by
  induction rest generalizing x with
  | nil =>
    constructor
    · rintro ⟨y, hy, rfl⟩
      rw [List.mem_singleton] at hy
      subst hy
      exact Or.inl ⟨le_refl _, le_refl _⟩
    · rintro (⟨h1, h2⟩ | ⟨y, hy, -⟩)
      · have h2b : pos ≤ x.num := h2
        exact ⟨x, List.mem_singleton_self x, by omega⟩
      · have hy2 : y ∈ ([] : List ParsedPort) := hy
        cases hy2
  | cons y ys ih =>
    rw [takeRun]
    by_cases hy : y.num == x.num + 1
    · rw [if_pos hy]
      have hnum : y.num = x.num + 1 := by simpa using hy
      have hge := takeRun_end_ge y ys
      have hih := ih y
      constructor
      · rintro ⟨z, hz, rfl⟩
        rcases List.mem_cons.mp hz with hz1 | hz1
        · subst hz1
          exact Or.inl ⟨le_refl _, by omega⟩
        · rcases hih.mp ⟨z, hz1, rfl⟩ with ⟨h1, h2⟩ | h1
          · exact Or.inl ⟨by omega, h2⟩
          · exact Or.inr h1
      · rintro (⟨h1, h2⟩ | h1)
        · by_cases hx : pos = x.num
          · exact ⟨x, List.mem_cons_self _ _, hx.symm⟩
          · rcases hih.mpr (Or.inl ⟨by omega, h2⟩) with ⟨z, hz, hzn⟩
            exact ⟨z, List.mem_cons_of_mem _ hz, hzn⟩
        · rcases hih.mpr (Or.inr h1) with ⟨z, hz, hzn⟩
          exact ⟨z, List.mem_cons_of_mem _ hz, hzn⟩
    · rw [if_neg hy]
      constructor
      · rintro ⟨z, hz, rfl⟩
        rcases List.mem_cons.mp hz with hz1 | hz1
        · subst hz1
          exact Or.inl ⟨le_refl _, le_refl _⟩
        · exact Or.inr ⟨z, hz1, rfl⟩
      · rintro (⟨h1, h2⟩ | ⟨z, hz, hzn⟩)
        · have h2b : pos ≤ x.num := h2
          exact ⟨x, List.mem_cons_self _ _, by omega⟩
        · exact ⟨z, List.mem_cons_of_mem _ hz, hzn⟩

theorem buildRunsFuel_num_iff (fuel : Nat) :
    ∀ (l : List ParsedPort), l.length ≤ fuel → ∀ pos : Int,
      (∃ r ∈ buildRunsFuel fuel l, r.1.num ≤ pos ∧ pos ≤ r.2.num) ↔
        (∃ y ∈ l, y.num = pos) := by
  induction fuel with
  | zero =>
    intro l hl pos
    rw [Nat.le_zero] at hl
    rw [List.length_eq_zero] at hl
    subst hl
    simp [buildRunsFuel]
  | succ fuel ih =>
    intro l hl pos
    cases l with
    | nil => simp [buildRunsFuel]
    | cons x rest =>
      rw [buildRunsFuel]
      have hlen : (takeRun x rest).2.length ≤ fuel := by
        have := takeRun_length x rest
        simp at hl
        omega
      have hih := ih (takeRun x rest).2 hlen pos
      rw [takeRun_num_iff x rest pos]
      constructor
      · rintro ⟨r, hr, h1, h2⟩
        rcases List.mem_cons.mp hr with hr1 | hr1
        · subst hr1
          exact Or.inl ⟨h1, h2⟩
        · exact Or.inr (hih.mp ⟨r, hr1, h1, h2⟩)
      · rintro (⟨h1, h2⟩ | h1)
        · exact ⟨(x, (takeRun x rest).1), List.mem_cons_self _ _, h1, h2⟩
        · obtain ⟨r, hr, h2, h3⟩ := hih.mpr h1
          exact ⟨r, List.mem_cons_of_mem _ hr, h2, h3⟩

theorem buildRunsFuel_mem (fuel : Nat) :
    ∀ (l : List ParsedPort), ∀ r ∈ buildRunsFuel fuel l,
      r.1 ∈ l ∧ r.2 ∈ l := by
  induction fuel with
  | zero =>
    intro l r hr
    simp [buildRunsFuel] at hr
  | succ fuel ih =>
    intro l r hr
    cases l with
    | nil => simp [buildRunsFuel] at hr
    | cons x rest =>
      rw [buildRunsFuel] at hr
      rcases List.mem_cons.mp hr with hr1 | hr1
      · subst hr1
        exact ⟨List.mem_cons_self _ _, takeRun_end_mem x rest⟩
      · obtain ⟨h1, h2⟩ := ih (takeRun x rest).2 r hr1
        exact ⟨List.mem_cons_of_mem _ (takeRun_drop_sub x rest _ h1),
               List.mem_cons_of_mem _ (takeRun_drop_sub x rest _ h2)⟩

theorem buildRuns_num_iff (l : List ParsedPort) (pos : Int) :
    (∃ r ∈ buildRuns l, r.1.num ≤ pos ∧ pos ≤ r.2.num) ↔
      (∃ y ∈ l, y.num = pos) :=
  buildRunsFuel_num_iff l.length l (le_refl _) pos

theorem buildRuns_mem (l : List ParsedPort) (r : ParsedPort × ParsedPort)
    (hr : r ∈ buildRuns l) : r.1 ∈ l ∧ r.2 ∈ l :=
  buildRunsFuel_mem l.length l r hr

theorem mem_insertPP (x z : ParsedPort) (l : List ParsedPort) :
    z ∈ insertPP x l ↔ z = x ∨ z ∈ l := by
  induction l with
  | nil => simp [insertPP]
  | cons y ys ih =>
    rw [insertPP]
    by_cases hy : ppLt y x
    · rw [if_pos hy]
      rw [List.mem_cons, ih, List.mem_cons]
      tauto
    · rw [if_neg hy]
      simp only [List.mem_cons]

theorem mem_sortPP (z : ParsedPort) (l : List ParsedPort) :
    z ∈ sortPP l ↔ z ∈ l := by
  induction l with
  | nil => simp [sortPP]
  | cons x xs ih =>
    rw [sortPP, mem_insertPP, ih, List.mem_cons]

theorem insertPP_perm (x : ParsedPort) (l : List ParsedPort) :
    (insertPP x l).Perm (x :: l) := by
  induction l with
  | nil => simp [insertPP]
  | cons y ys ih =>
    rw [insertPP]
    by_cases hy : ppLt y x
    · rw [if_pos hy]
      exact (ih.cons y).trans (List.Perm.swap x y ys)
    · rw [if_neg hy]

theorem sortPP_perm (l : List ParsedPort) : (sortPP l).Perm l := by
  induction l with
  | nil => simp [sortPP]
  | cons x xs ih =>
    exact (insertPP_perm x (sortPP xs)).trans (ih.cons x)

theorem insertKey2_length (x : Int × Int) (l : List (Int × Int)) :
    (insertKey2 x l).length = l.length + 1 := by
  induction l with
  | nil => rfl
  | cons y ys ih =>
    rw [insertKey2]
    by_cases hy : keyLt2 y x
    · rw [if_pos hy]
      simp [ih]
    · rw [if_neg hy]
      rfl

theorem sortKeys_length (l : List (Int × Int)) :
    (sortKeys l).length = l.length := by
  induction l with
  | nil => rfl
  | cons x xs ih =>
    rw [sortKeys, insertKey2_length, ih]
    rfl

theorem mem_insertKey2 (x z : Int × Int) (l : List (Int × Int)) :
    z ∈ insertKey2 x l ↔ z = x ∨ z ∈ l := by
  induction l with
  | nil => simp [insertKey2]
  | cons y ys ih =>
    rw [insertKey2]
    by_cases hy : keyLt2 y x
    · rw [if_pos hy]
      rw [List.mem_cons, ih, List.mem_cons]
      tauto
    · rw [if_neg hy]
      simp only [List.mem_cons]

theorem mem_sortKeys (z : Int × Int) (l : List (Int × Int)) :
    z ∈ sortKeys l ↔ z ∈ l := by
  induction l with
  | nil => simp [sortKeys]
  | cons x xs ih =>
    rw [sortKeys, mem_insertKey2, ih, List.mem_cons]

theorem mem_groupKeys (l : List ParsedPort) (k : Int × Int) :
    k ∈ groupKeys l ↔ ∃ p ∈ l, (p.unit, p.module) = k := by
  rw [groupKeys, mem_sortKeys, List.mem_dedup, List.mem_map]

theorem mem_groupFor (l : List ParsedPort) (k : Int × Int) (p : ParsedPort) :
    p ∈ groupFor l k ↔ p ∈ l ∧ p.unit = k.1 ∧ p.module = k.2 := by
  rw [groupFor, List.mem_filter]
  simp

theorem parsePortEntry_of_canonical (s : String)
    (hc : isCanonicalPort s = true) :
    ∃ p, parsePortEntry s = some p ∧ p.str = s := by
  rw [isCanonicalPort] at hc
  rw [parsePortEntry]
  split at hc
  · split
    · exact ⟨_, rfl, rfl⟩
    · exact ⟨_, rfl, rfl⟩
  · cases hc

/-- C3 (confirmed): for canonical `unit/module/position` inputs, the Brocade
port grouping emits exactly one joined range-token string per distinct
`(unit, module)` pair; the positions covered by the emitted runs (each
`start to end` pair inclusive) are exactly the input positions of that
`(unit, module)`; both endpoints of every run lie in the pair's own group,
so no emitted token string spans two `(unit, module)` pairs; and no
canonical input port is dropped by the parsing step. -/
theorem C3_group_ports (ports : List String)
    (h : ∀ s ∈ ports, isCanonicalPort s = true) :
    groupPortsByModule ports =
      (groupKeys (sortPP (ports.filterMap parsePortEntry))).map (fun k =>
        joinSep " " ((buildRuns (groupFor
          (sortPP (ports.filterMap parsePortEntry)) k)).map runToken)) ∧
    (groupPortsByModule ports).length =
      (((ports.filterMap parsePortEntry).map
        (fun p => (p.unit, p.module))).dedup).length ∧
    (∀ u m pos : Int,
      (∃ r ∈ buildRuns (groupFor (sortPP (ports.filterMap parsePortEntry))
          (u, m)), r.1.num ≤ pos ∧ pos ≤ r.2.num) ↔
      (∃ p ∈ ports.filterMap parsePortEntry,
        p.unit = u ∧ p.module = m ∧ p.num = pos)) ∧
    (∀ k : Int × Int,
      ∀ r ∈ buildRuns (groupFor (sortPP (ports.filterMap parsePortEntry)) k),
        r.1.unit = k.1 ∧ r.1.module = k.2 ∧
        r.2.unit = k.1 ∧ r.2.module = k.2) ∧
    (∀ s ∈ ports, ∃ p ∈ ports.filterMap parsePortEntry, p.str = s) := by
  have hd : groupPortsByModule ports =
      (groupKeys (sortPP (ports.filterMap parsePortEntry))).map (fun k =>
        joinSep " " ((buildRuns (groupFor
          (sortPP (ports.filterMap parsePortEntry)) k)).map runToken)) := by
    by_cases hp : ports = []
    · subst hp
      rfl
    · rw [groupPortsByModule, if_neg hp]
  refine ⟨hd, ?_, ?_, ?_, ?_⟩
  · rw [hd, List.length_map, groupKeys, sortKeys_length]
    exact ((sortPP_perm (ports.filterMap parsePortEntry)).map
      (fun p => (p.unit, p.module))).dedup.length_eq
  · intro u m pos
    rw [buildRuns_num_iff]
    constructor
    · rintro ⟨y, hy, rfl⟩
      rw [mem_groupFor] at hy
      obtain ⟨hy1, hy2, hy3⟩ := hy
      exact ⟨y, (mem_sortPP y _).mp hy1, hy2, hy3, rfl⟩
    · rintro ⟨p, hp, h1, h2, h3⟩
      refine ⟨p, ?_, h3⟩
      rw [mem_groupFor]
      exact ⟨(mem_sortPP p _).mpr hp, h1, h2⟩
  · intro k r hr
    obtain ⟨h1, h2⟩ := buildRuns_mem _ r hr
    rw [mem_groupFor] at h1 h2
    exact ⟨h1.2.1, h1.2.2, h2.2.1, h2.2.2⟩
  · intro s hs
    obtain ⟨p, hp, hstr⟩ := parsePortEntry_of_canonical s (h s hs)
    exact ⟨p, List.mem_filterMap.mpr ⟨s, hs, hp⟩, hstr⟩

/-- C3 witness: the grouping theorem applied to the spec's cross-module
union scenario, together with the concrete two-token result (one token per
module, never a combined range). -/
theorem C3_group_ports_witness :
    (∀ s ∈ (["1/1/1", "1/1/2", "1/2/1", "1/2/2"] : List String),
      isCanonicalPort s = true) ∧
    (groupPortsByModule ["1/1/1", "1/1/2", "1/2/1", "1/2/2"] =
      (groupKeys (sortPP ((["1/1/1", "1/1/2", "1/2/1", "1/2/2"] :
          List String).filterMap parsePortEntry))).map (fun k =>
        joinSep " " ((buildRuns (groupFor
          (sortPP ((["1/1/1", "1/1/2", "1/2/1", "1/2/2"] :
            List String).filterMap parsePortEntry)) k)).map runToken)) ∧
    (groupPortsByModule ["1/1/1", "1/1/2", "1/2/1", "1/2/2"]).length =
      ((((["1/1/1", "1/1/2", "1/2/1", "1/2/2"] :
        List String).filterMap parsePortEntry).map
        (fun p => (p.unit, p.module))).dedup).length ∧
    (∀ u m pos : Int,
      (∃ r ∈ buildRuns (groupFor (sortPP ((["1/1/1", "1/1/2", "1/2/1",
          "1/2/2"] : List String).filterMap parsePortEntry)) (u, m)),
          r.1.num ≤ pos ∧ pos ≤ r.2.num) ↔
      (∃ p ∈ (["1/1/1", "1/1/2", "1/2/1", "1/2/2"] :
          List String).filterMap parsePortEntry,
        p.unit = u ∧ p.module = m ∧ p.num = pos)) ∧
    (∀ k : Int × Int,
      ∀ r ∈ buildRuns (groupFor (sortPP ((["1/1/1", "1/1/2", "1/2/1",
          "1/2/2"] : List String).filterMap parsePortEntry)) k),
        r.1.unit = k.1 ∧ r.1.module = k.2 ∧
        r.2.unit = k.1 ∧ r.2.module = k.2) ∧
    (∀ s ∈ (["1/1/1", "1/1/2", "1/2/1", "1/2/2"] : List String),
      ∃ p ∈ (["1/1/1", "1/1/2", "1/2/1", "1/2/2"] :
        List String).filterMap parsePortEntry, p.str = s)) ∧
    groupPortsByModule ["1/1/1", "1/1/2", "1/2/1", "1/2/2"] =
      ["1/1/1 to 1/1/2", "1/2/1 to 1/2/2"] :=
  ⟨by decide, C3_group_ports ["1/1/1", "1/1/2", "1/2/1", "1/2/2"] (by decide),
   by decide⟩

/-! Lemmas about the Brocade command generator (C2). -/

theorem listStarts_cons_ex (a : Char) (as l : List Char)
    (h : listStarts (a :: as) l = true) : ∃ t, l = a :: t := by
  cases l with
  | nil => exact absurd h (by simp [listStarts])
  | cons b bs =>
    have h2 : (a == b && listStarts as bs) = true := h
    have hab : a = b := by
      have h3 := (Bool.and_eq_true _ _).mp h2
      exact eq_of_beq h3.1
    exact ⟨bs, by rw [hab]⟩

theorem rank_removeU (x : String) :
    brocadeCmdRank ("no untagged ethe " ++ x) = 1 := by
  have h1 : strStarts "no untagged ethe " ("no untagged ethe " ++ x) = true := by
    rw [strStarts, strDataAppend, listStarts_append _ _ _ (by decide)]; decide
  rw [brocadeCmdRank, if_pos h1]

theorem rank_removeT (x : String) :
    brocadeCmdRank ("no tagged ethe " ++ x) = 2 := by
  have h1 : strStarts "no untagged ethe " ("no tagged ethe " ++ x) = false := by
    rw [strStarts, strDataAppend]
    exact listStarts_append_false _ _ _ 3 (by decide) (by decide) (by decide)
  have h2 : strStarts "no tagged ethe " ("no tagged ethe " ++ x) = true := by
    rw [strStarts, strDataAppend, listStarts_append _ _ _ (by decide)]; decide
  rw [brocadeCmdRank, if_neg (by simp [h1]), if_pos h2]

theorem rank_addU (x : String) :
    brocadeCmdRank ("untagged ethe " ++ x) = 3 := by
  have h1 : strStarts "no untagged ethe " ("untagged ethe " ++ x) = false := by
    rw [strStarts, strDataAppend]
    exact listStarts_append_false _ _ _ 0 (by decide) (by decide) (by decide)
  have h2 : strStarts "no tagged ethe " ("untagged ethe " ++ x) = false := by
    rw [strStarts, strDataAppend]
    exact listStarts_append_false _ _ _ 0 (by decide) (by decide) (by decide)
  have h3 : strStarts "untagged ethe " ("untagged ethe " ++ x) = true := by
    rw [strStarts, strDataAppend, listStarts_append _ _ _ (by decide)]; decide
  rw [brocadeCmdRank, if_neg (by simp [h1]), if_neg (by simp [h2]), if_pos h3]

theorem rank_addT (x : String) :
    brocadeCmdRank ("tagged ethe " ++ x) = 4 := by
  have h1 : strStarts "no untagged ethe " ("tagged ethe " ++ x) = false := by
    rw [strStarts, strDataAppend]
    exact listStarts_append_false _ _ _ 0 (by decide) (by decide) (by decide)
  have h2 : strStarts "no tagged ethe " ("tagged ethe " ++ x) = false := by
    rw [strStarts, strDataAppend]
    exact listStarts_append_false _ _ _ 0 (by decide) (by decide) (by decide)
  have h3 : strStarts "untagged ethe " ("tagged ethe " ++ x) = false := by
    rw [strStarts, strDataAppend]
    exact listStarts_append_false _ _ _ 0 (by decide) (by decide) (by decide)
  have h4 : strStarts "tagged ethe " ("tagged ethe " ++ x) = true := by
    rw [strStarts, strDataAppend, listStarts_append _ _ _ (by decide)]; decide
  rw [brocadeCmdRank, if_neg (by simp [h1]), if_neg (by simp [h2]),
    if_neg (by simp [h3]), if_pos h4]

theorem rank_header (x : String) :
    brocadeCmdRank ("vlan " ++ x) = 0 := by
  have h1 : strStarts "no untagged ethe " ("vlan " ++ x) = false := by
    rw [strStarts, strDataAppend]
    exact listStarts_append_false _ _ _ 0 (by decide) (by decide) (by decide)
  have h2 : strStarts "no tagged ethe " ("vlan " ++ x) = false := by
    rw [strStarts, strDataAppend]
    exact listStarts_append_false _ _ _ 0 (by decide) (by decide) (by decide)
  have h3 : strStarts "untagged ethe " ("vlan " ++ x) = false := by
    rw [strStarts, strDataAppend]
    exact listStarts_append_false _ _ _ 0 (by decide) (by decide) (by decide)
  have h4 : strStarts "tagged ethe " ("vlan " ++ x) = false := by
    rw [strStarts, strDataAppend]
    exact listStarts_append_false _ _ _ 0 (by decide) (by decide) (by decide)
  have h5 : strStarts "vlan " ("vlan " ++ x) = true := by
    rw [strStarts, strDataAppend, listStarts_append _ _ _ (by decide)]; decide
  rw [brocadeCmdRank, if_neg (by simp [h1]), if_neg (by simp [h2]),
    if_neg (by simp [h3]), if_neg (by simp [h4]), if_pos h5]

theorem rank_of_removeU_pre (s : String)
    (h : strStarts "no untagged ethe " s = true) : brocadeCmdRank s = 1 := by
  rw [brocadeCmdRank, if_pos h]

theorem rank_of_addU_pre (s : String)
    (h : strStarts "untagged ethe " s = true) : brocadeCmdRank s = 3 := by
  obtain ⟨t, ht⟩ := listStarts_cons_ex 'u' _ s.data h
  have h1 : strStarts "no untagged ethe " s = false := by
    by_contra hc
    rw [Bool.not_eq_false] at hc
    obtain ⟨t2, ht2⟩ := listStarts_cons_ex 'n' _ s.data hc
    rw [ht] at ht2
    cases ht2
  have h2 : strStarts "no tagged ethe " s = false := by
    by_contra hc
    rw [Bool.not_eq_false] at hc
    obtain ⟨t2, ht2⟩ := listStarts_cons_ex 'n' _ s.data hc
    rw [ht] at ht2
    cases ht2
  rw [brocadeCmdRank, if_neg (by simp [h1]), if_neg (by simp [h2]), if_pos h]

theorem pairwise_rank_le_of_const (k : Nat) (l : List String)
    (h : ∀ s ∈ l, brocadeCmdRank s = k) :
    l.Pairwise (fun a b => brocadeCmdRank a ≤ brocadeCmdRank b) := by
  induction l with
  | nil => exact List.Pairwise.nil
  | cons x xs ih =>
    refine List.Pairwise.cons ?_ (ih fun s hs => h s (List.mem_cons_of_mem _ hs))
    intro b hb
    rw [h x (List.mem_cons_self _ _), h b (List.mem_cons_of_mem _ hb)]

/-- C2 (confirmed): for every VLAN modify change, the Brocade generator's
main-phase block consists of the `vlan <id>` header, then the four command
groups in removes-untagged, removes-tagged, adds-untagged, adds-tagged
order (each command's rank is nondecreasing along the block), then `exit`;
for a diff holding that single modify change, the block is the plan's
main-command list, so in particular every `no untagged ethe ...` command
sits at a strictly smaller index than every `untagged ethe ...` command. -/
theorem C2_modify_removes_before_adds (c : VLANChange) (save : Bool)
    (hc : c.change_type = .modify) :
    (generateBrocade { vlan_changes := [c] } save).main_commands =
      brocadeVlanCommands c ∧
    (brocadeVlanCommands c).Pairwise
      (fun a b => brocadeCmdRank a ≤ brocadeCmdRank b) ∧
    (∀ i j : Fin (brocadeVlanCommands c).length,
      strStarts "no untagged ethe " ((brocadeVlanCommands c).get i) = true →
      strStarts "untagged ethe " ((brocadeVlanCommands c).get j) = true →
      (i : Nat) < (j : Nat)) := by
  have hblock : brocadeVlanCommands c =
      ["vlan " ++ toString c.vlan_id] ++
      ((groupPortsByModule c.ports_to_remove_untagged).map
        (fun s => "no untagged ethe " ++ s) ++
      ((groupPortsByModule c.ports_to_remove_tagged).map
        (fun s => "no tagged ethe " ++ s) ++
      ((groupPortsByModule c.ports_to_add_untagged).map
        (fun s => "untagged ethe " ++ s) ++
      ((groupPortsByModule c.ports_to_add_tagged).map
        (fun s => "tagged ethe " ++ s) ++
      ["exit"])))) := by
    simp [brocadeVlanCommands, hc]
  have mA : ∀ s ∈ (groupPortsByModule c.ports_to_remove_untagged).map
      (fun s => "no untagged ethe " ++ s), brocadeCmdRank s = 1 := by
    intro s hs
    obtain ⟨x, -, rfl⟩ := List.mem_map.mp hs
    exact rank_removeU x
  have mB : ∀ s ∈ (groupPortsByModule c.ports_to_remove_tagged).map
      (fun s => "no tagged ethe " ++ s), brocadeCmdRank s = 2 := by
    intro s hs
    obtain ⟨x, -, rfl⟩ := List.mem_map.mp hs
    exact rank_removeT x
  have mC : ∀ s ∈ (groupPortsByModule c.ports_to_add_untagged).map
      (fun s => "untagged ethe " ++ s), brocadeCmdRank s = 3 := by
    intro s hs
    obtain ⟨x, -, rfl⟩ := List.mem_map.mp hs
    exact rank_addU x
  have mD : ∀ s ∈ (groupPortsByModule c.ports_to_add_tagged).map
      (fun s => "tagged ethe " ++ s), brocadeCmdRank s = 4 := by
    intro s hs
    obtain ⟨x, -, rfl⟩ := List.mem_map.mp hs
    exact rank_addT x
  have hpw : (brocadeVlanCommands c).Pairwise
      (fun a b => brocadeCmdRank a ≤ brocadeCmdRank b) := by
    rw [hblock]
    rw [List.pairwise_append]
    refine ⟨by simp, ?_, ?_⟩
    · rw [List.pairwise_append]
      refine ⟨pairwise_rank_le_of_const 1 _ mA, ?_, ?_⟩
      · rw [List.pairwise_append]
        refine ⟨pairwise_rank_le_of_const 2 _ mB, ?_, ?_⟩
        · rw [List.pairwise_append]
          refine ⟨pairwise_rank_le_of_const 3 _ mC, ?_, ?_⟩
          · rw [List.pairwise_append]
            refine ⟨pairwise_rank_le_of_const 4 _ mD, by simp, ?_⟩
            · intro a ha b hb
              rw [List.mem_singleton] at hb
              subst hb
              rw [mD a ha]
              have hex : brocadeCmdRank "exit" = 5 := by decide
              rw [hex]
              omega
          · intro a ha b hb
            rw [mC a ha]
            rcases List.mem_append.mp hb with hb1 | hb1
            · rw [mD b hb1]; omega
            · rw [List.mem_singleton] at hb1
              subst hb1
              have hex : brocadeCmdRank "exit" = 5 := by decide
              rw [hex]; omega
        · intro a ha b hb
          rw [mB a ha]
          rcases List.mem_append.mp hb with hb1 | hb1
          · rw [mC b hb1]; omega
          · rcases List.mem_append.mp hb1 with hb2 | hb2
            · rw [mD b hb2]; omega
            · rw [List.mem_singleton] at hb2
              subst hb2
              have hex : brocadeCmdRank "exit" = 5 := by decide
              rw [hex]; omega
      · intro a ha b hb
        rw [mA a ha]
        rcases List.mem_append.mp hb with hb1 | hb1
        · rw [mB b hb1]; omega
        · rcases List.mem_append.mp hb1 with hb2 | hb2
          · rw [mC b hb2]; omega
          · rcases List.mem_append.mp hb2 with hb3 | hb3
            · rw [mD b hb3]; omega
            · rw [List.mem_singleton] at hb3
              subst hb3
              have hex : brocadeCmdRank "exit" = 5 := by decide
              rw [hex]; omega
    · intro a ha b hb
      rw [List.mem_singleton] at ha
      subst ha
      rw [rank_header]
      exact Nat.zero_le _
  refine ⟨by simp [generateBrocade], hpw, ?_⟩
  intro i j hi hj
  rcases Nat.lt_trichotomy (i : Nat) (j : Nat) with h | h | h
  · exact h
  · exfalso
    have hij : i = j := Fin.ext h
    subst hij
    obtain ⟨t1, ht1⟩ := listStarts_cons_ex 'n' _ _ hi
    obtain ⟨t2, ht2⟩ := listStarts_cons_ex 'u' _ _ hj
    rw [ht1] at ht2
    cases ht2
  · exfalso
    have hle := List.pairwise_iff_get.mp hpw j i (by omega)
    rw [rank_of_addU_pre _ hj, rank_of_removeU_pre _ hi] at hle
    omega

/-- C2 witness: the ordering theorem applied at the spec's safe-modify
scenario, together with the concrete plan it produces, in which
`no untagged ethe 1/1/1 to 1/1/2` strictly precedes
`untagged ethe 1/1/3 to 1/1/4`. -/
theorem C2_modify_removes_before_adds_witness :
    c2wc.change_type = .modify ∧
    ((generateBrocade { vlan_changes := [c2wc] } true).main_commands =
      brocadeVlanCommands c2wc ∧
    (brocadeVlanCommands c2wc).Pairwise
      (fun a b => brocadeCmdRank a ≤ brocadeCmdRank b) ∧
    (∀ i j : Fin (brocadeVlanCommands c2wc).length,
      strStarts "no untagged ethe " ((brocadeVlanCommands c2wc).get i) = true →
      strStarts "untagged ethe " ((brocadeVlanCommands c2wc).get j) = true →
      (i : Nat) < (j : Nat))) ∧
    (generateBrocade { vlan_changes := [c2wc] } true).main_commands =
      ["vlan 100", "no untagged ethe 1/1/1 to 1/1/2",
       "untagged ethe 1/1/3 to 1/1/4", "exit"] :=
  ⟨rfl, C2_modify_removes_before_adds c2wc true rfl, by decide⟩

/-! Theorems about the Brocade batch-output parser (C10). -/

/-- C10 (confirmed): when the batch-output scan does not stop early, every
command beyond those the scan attributed output to receives a padding entry
with success = true, empty output and no error, and if the attributed
entries all succeeded then `execute_batch`'s overall success is true — even
though the padded commands have no evidence in the output that they ran. -/
theorem C10_batch_padding (output : String) (commands : List String)
    (stop : Bool) (r : List BatchEntry)
    (h : parseBatchCore output commands stop = Sum.inr r) :
    parseBatchOutput output commands stop =
      r ++ (commands.drop r.length).map padEntry ∧
    (∀ e ∈ (commands.drop r.length).map padEntry,
      e.success = true ∧ e.output = "" ∧ e.error = none) ∧
    ((∀ e ∈ r, e.success = true) →
      executeBatchSuccess (parseBatchOutput output commands stop) = true) := by
  have heq : parseBatchOutput output commands stop =
      r ++ (commands.drop r.length).map padEntry := by
    rw [parseBatchOutput, h]
  refine ⟨heq, ?_, ?_⟩
  · intro e he
    obtain ⟨c, -, rfl⟩ := List.mem_map.mp he
    exact ⟨rfl, rfl, rfl⟩
  · intro hall
    rw [heq, executeBatchSuccess, List.all_append]
    have h1 : r.all (fun e => e.success) = true := by
      rw [List.all_eq_true]
      intro e he
      exact hall e he
    have h2 : ((commands.drop r.length).map padEntry).all
        (fun e => e.success) = true := by
      rw [List.all_eq_true]
      intro e he
      obtain ⟨c, -, rfl⟩ := List.mem_map.mp he
      rfl
    rw [h1, h2]
    rfl

/-- C10 witness: a two-command batch whose consolidated output echoes only
the first command — the second command gets a success-true padding entry
and the batch reports overall success with no evidence the command ran. -/
theorem C10_batch_padding_witness :
    parseBatchCore "telnet@Router#vlan 100" ["vlan 100", "exit"] true =
      Sum.inr [{ command := "vlan 100", success := true, output := "",
                 error := none }] ∧
    (parseBatchOutput "telnet@Router#vlan 100" ["vlan 100", "exit"] true =
      [{ command := "vlan 100", success := true, output := "", error := none }] ++
      ((["vlan 100", "exit"] : List String).drop 1).map padEntry ∧
    (∀ e ∈ ((["vlan 100", "exit"] : List String).drop 1).map padEntry,
      e.success = true ∧ e.output = "" ∧ e.error = none) ∧
    ((∀ e ∈ ([{ command := "vlan 100", success := true, output := "",
                error := none }] : List BatchEntry), e.success = true) →
      executeBatchSuccess (parseBatchOutput "telnet@Router#vlan 100"
        ["vlan 100", "exit"] true) = true)) :=
  ⟨by decide,
   C10_batch_padding "telnet@Router#vlan 100" ["vlan 100", "exit"] true
     [{ command := "vlan 100", success := true, output := "", error := none }]
     (by decide)⟩

/-! Theorems about the Brocade show-vlan port-line parser (C7). -/

/-- C7 (amended): the get-vlans port-line parser combines a hardcoded unit
`1` — not the unit from the `(U<unit>/M<module>)` discriminator — with the
parsed module and each numeric position: every identifier it emits has the
form `1/<module>/<position>`; when the module token is missing (and the line
is not the empty/None case) the module defaults to 1. -/
theorem C7_parse_port_line (line pre : String) :
    (∀ s ∈ (parsePortLine line pre).2, ∃ part : String,
      s = "1/" ++ toString (parsePortLine line pre).1 ++ "/" ++ part) ∧
    (¬ ((stripChars (afterLastSub pre.data line.data)).map Char.toLower =
          "none".data ∨
        stripChars (afterLastSub pre.data line.data) = []) →
     searchModule (stripChars (afterLastSub pre.data line.data)) = none →
     (parsePortLine line pre).1 = 1) := by
  constructor
  · intro s hs
    rw [parsePortLine] at hs ⊢
    by_cases h0 : (stripChars (afterLastSub pre.data line.data)).map
        Char.toLower = "none".data ∨
        stripChars (afterLastSub pre.data line.data) = []
    · rw [if_pos h0] at hs
      cases hs
    · rw [if_neg h0] at hs ⊢
      simp only at hs ⊢
      obtain ⟨part, -, hpart⟩ := List.mem_filterMap.mp hs
      by_cases hd : isDigits part = true
      · rw [if_pos hd] at hpart
        exact ⟨String.mk part, by
          cases hpart
          rfl⟩
      · rw [if_neg hd] at hpart
        cases hpart
  · intro h0 hsm
    rw [parsePortLine]
    rw [if_neg h0]
    simp only [hsm]

/-- C7 witness: the parser applied to a line with no module discriminator —
the module defaults to 1 and the emitted identifiers carry unit 1. -/
theorem C7_parse_port_line_witness :
    (∀ s ∈ (parsePortLine " Tagged Ports: 3 4" "Tagged Ports:").2,
      ∃ part : String,
        s = "1/" ++ toString (parsePortLine " Tagged Ports: 3 4"
          "Tagged Ports:").1 ++ "/" ++ part) ∧
    (parsePortLine " Tagged Ports: 3 4" "Tagged Ports:").1 = 1 :=
  ⟨(C7_parse_port_line " Tagged Ports: 3 4" "Tagged Ports:").1,
   (C7_parse_port_line " Tagged Ports: 3 4" "Tagged Ports:").2
     (by decide) (by decide)⟩

/-- C7 counterexample: a line whose discriminator is `(U2/M1)` with position
5 yields `1/1/5` — the unit is hardcoded to 1 — not the `2/1/5` that the
claim requires. -/
theorem C7_counterexample :
    parsePortLine " Untagged Ports: (U2/M1)   5" "Untagged Ports:" =
      (1, ["1/1/5"]) ∧
    "2/1/5" ∉ (parsePortLine " Untagged Ports: (U2/M1)   5"
      "Untagged Ports:").2 := by
  constructor
  · decide
  · decide

/-! Theorems about the executor's dry-run mode (C5). -/

/-- C5 (confirmed): with dry-run set, `execute` returns before any device
interaction — the device-event trace is empty (no write session opened, no
command executed) and the result does not depend on the device at all — with
success true, the dry-run flag set, commands-executed equal to the pre/main/
post concatenation prefixed with the dry-run marker, and changes-made equal
to the diff's human-readable change extraction prefixed with the preview
marker. -/
theorem C5_dry_run_short_circuits (dev : DeviceModel) (plan : CommandPlan)
    (diff : DiffResult) (options : ExecuteOptions)
    (h : options.dry_run = true) :
    executorExecute dev plan diff options =
      ({ success := true,
         dry_run := true,
         changes_made :=
           (extractChanges diff).map (fun change => "[PREVIEW] " ++ change),
         commands_executed :=
           (plan.pre_commands ++ plan.main_commands ++
             plan.post_commands).map (fun cmd => "[DRY-RUN] " ++ cmd) },
       ([] : List DeviceEvent)) := by
  rw [executorExecute]
  simp only [h, if_true, if_pos]
  rfl

/-- C5 witness: the dry-run theorem applied to a concrete one-command plan
and one-change diff, on a device oracle that would fail every command —
showing the device is never consulted. -/
theorem C5_dry_run_short_circuits_witness :
    ({ dry_run := true } : ExecuteOptions).dry_run = true ∧
    executorExecute
      { execResp := fun _ => (false, "boom"),
        batchResp := fun _ _ => (false, "boom") }
      { main_commands := ["no vlan 100"], post_commands := ["write memory"] }
      { vlan_changes := [{ vlan_id := 100, change_type := .delete }] }
      { dry_run := true } =
      ({ success := true,
         dry_run := true,
         changes_made :=
           (extractChanges
             { vlan_changes := [{ vlan_id := 100, change_type := .delete }] }).map
             (fun change => "[PREVIEW] " ++ change),
         commands_executed :=
           ((({ main_commands := ["no vlan 100"],
                post_commands := ["write memory"] } : CommandPlan).pre_commands ++
             ["no vlan 100"] ++ ["write memory"]).map
             (fun cmd => "[DRY-RUN] " ++ cmd)) },
       ([] : List DeviceEvent)) :=
  ⟨rfl, C5_dry_run_short_circuits
    { execResp := fun _ => (false, "boom"),
      batchResp := fun _ _ => (false, "boom") }
    { main_commands := ["no vlan 100"], post_commands := ["write memory"] }
    { vlan_changes := [{ vlan_id := 100, change_type := .delete }] }
    { dry_run := true } rfl⟩

/-! Lemmas about the validator's conflict detection (C4). -/

theorem untaggedFold_errs_mono (vid : Int) (l : List String)
    (assigns : List (String × Int)) (errs : List String) (msg : String)
    (h : msg ∈ errs) : msg ∈ (untaggedFold vid l assigns errs).2 := by
  induction l generalizing assigns errs with
  | nil => exact h
  | cons port rest ih =>
    rw [untaggedFold]
    cases hf : assigns.find? (fun q => q.1 = port) with
    | some q => exact ih _ _ (List.mem_append_left _ h)
    | none => exact ih _ _ h

theorem untaggedFold_assigns_mono (vid : Int) (l : List String)
    (assigns : List (String × Int)) (errs : List String) (x : String)
    (h : ∃ v, (x, v) ∈ assigns) :
    ∃ v, (x, v) ∈ (untaggedFold vid l assigns errs).1 := by
  induction l generalizing assigns errs with
  | nil => exact h
  | cons port rest ih =>
    rw [untaggedFold]
    cases hf : assigns.find? (fun q => q.1 = port) with
    | some q => exact ih _ _ h
    | none =>
      obtain ⟨v, hv⟩ := h
      exact ih _ _ ⟨v, List.mem_append_left _ hv⟩

theorem untaggedFold_mem_assigns (vid : Int) (l : List String)
    (assigns : List (String × Int)) (errs : List String) (port : String)
    (h : port ∈ l) :
    ∃ v, (port, v) ∈ (untaggedFold vid l assigns errs).1 := by
  induction l generalizing assigns errs with
  | nil => cases h
  | cons p rest ih =>
    rw [untaggedFold]
    by_cases hp : port = p
    · subst hp
      cases hf : assigns.find? (fun q => q.1 = port) with
      | some q =>
        have hq : q.1 = port := by
          have := List.find?_some hf
          simpa using this
        refine untaggedFold_assigns_mono _ _ _ _ _ ⟨q.2, ?_⟩
        rw [show (port, q.2) = q from by rw [← hq]]
        exact List.mem_of_find?_eq_some hf
      | none =>
        exact untaggedFold_assigns_mono _ _ _ _ _
          ⟨vid, List.mem_append_right _ (by simp)⟩
    · have hrest : port ∈ rest := by
        rcases List.mem_cons.mp h with h1 | h1
        · exact absurd h1 hp
        · exact h1
      cases hf : assigns.find? (fun q => q.1 = p) with
      | some q => exact ih _ _ hrest
      | none => exact ih _ _ hrest

theorem untaggedFold_conflict (vid : Int) (l : List String)
    (assigns : List (String × Int)) (errs : List String) (port : String)
    (hmem : port ∈ l) (hass : ∃ v, (port, v) ∈ assigns) :
    ∃ v1 v2, conflictMsg port v1 v2 ∈ (untaggedFold vid l assigns errs).2 := by
  induction l generalizing assigns errs with
  | nil => cases hmem
  | cons p rest ih =>
    rw [untaggedFold]
    by_cases hp : port = p
    · subst hp
      cases hf : assigns.find? (fun q => q.1 = port) with
      | some q =>
        exact ⟨q.2, vid, untaggedFold_errs_mono _ _ _ _ _
          (List.mem_append_right _ (by simp))⟩
      | none =>
        exfalso
        obtain ⟨v, hv⟩ := hass
        have := List.find?_eq_none.mp hf _ hv
        simp at this
    · have hrest : port ∈ rest := by
        rcases List.mem_cons.mp hmem with h1 | h1
        · exact absurd h1 hp
        · exact h1
      cases hf : assigns.find? (fun q => q.1 = p) with
      | some q => exact ih _ _ hrest hass
      | none =>
        obtain ⟨v, hv⟩ := hass
        exact ih _ _ hrest ⟨v, List.mem_append_left _ hv⟩

theorem conflictAux_errs_mono (vlans : List (Int × VLANDesiredState))
    (assigns : List (String × Int)) (errs : List String) (msg : String)
    (h : msg ∈ errs) : msg ∈ (conflictAux vlans assigns errs).2 := by
  induction vlans generalizing assigns errs with
  | nil => exact h
  | cons p rest ih =>
    rw [conflictAux]
    by_cases ha : p.2.action = .absent
    · rw [if_pos ha]; exact ih _ _ h
    · rw [if_neg ha]
      exact ih _ _ (untaggedFold_errs_mono _ _ _ _ _ h)

theorem conflictAux_dup (vlans : List (Int × VLANDesiredState))
    (assigns : List (String × Int)) (errs : List String) (port : String)
    (hass : ∃ v, (port, v) ∈ assigns)
    (hw : ∃ w ∈ vlans, ¬ w.2.action = .absent ∧ port ∈ w.2.untagged_ports) :
    ∃ v1 v2, conflictMsg port v1 v2 ∈ (conflictAux vlans assigns errs).2 := by
  induction vlans generalizing assigns errs with
  | nil =>
    obtain ⟨w, hw1, -⟩ := hw
    cases hw1
  | cons p rest ih =>
    rw [conflictAux]
    obtain ⟨w, hw1, hwa, hwp⟩ := hw
    rcases List.mem_cons.mp hw1 with hw2 | hw2
    · subst hw2
      rw [if_neg hwa]
      obtain ⟨v1, v2, hm⟩ := untaggedFold_conflict w.1 w.2.untagged_ports
        assigns errs port hwp hass
      exact ⟨v1, v2, conflictAux_errs_mono _ _ _ _ hm⟩
    · by_cases ha : p.2.action = .absent
      · rw [if_pos ha]
        exact ih _ _ hass ⟨w, hw2, hwa, hwp⟩
      · rw [if_neg ha]
        exact ih _ _ (untaggedFold_assigns_mono _ _ _ _ _ hass)
          ⟨w, hw2, hwa, hwp⟩

theorem conflictAux_two (vlans : List (Int × VLANDesiredState))
    (assigns : List (String × Int)) (errs : List String) (port : String)
    (i j : Nat) (vi vj : Int × VLANDesiredState)
    (hij : i < j) (hi : vlans.get? i = some vi) (hj : vlans.get? j = some vj)
    (hai : ¬ vi.2.action = .absent) (haj : ¬ vj.2.action = .absent)
    (hpi : port ∈ vi.2.untagged_ports) (hpj : port ∈ vj.2.untagged_ports) :
    ∃ v1 v2, conflictMsg port v1 v2 ∈ (conflictAux vlans assigns errs).2 := by
  induction vlans generalizing i j assigns errs with
  | nil => cases hi
  | cons p rest ih =>
    rw [conflictAux]
    cases i with
    | zero =>
      have hp : p = vi := by simpa using hi
      subst hp
      rw [if_neg hai]
      cases j with
      | zero => cases hij
      | succ j2 =>
        have hj2 : rest.get? j2 = some vj := by simpa using hj
        have hass2 := untaggedFold_mem_assigns p.1 p.2.untagged_ports
          assigns errs port hpi
        exact conflictAux_dup rest _ _ port hass2
          ⟨vj, List.get?_mem hj2, haj, hpj⟩
    | succ i2 =>
      cases j with
      | zero => cases hij
      | succ j2 =>
        have hi2 : rest.get? i2 = some vi := by simpa using hi
        have hj2 : rest.get? j2 = some vj := by simpa using hj
        have hij2 : i2 < j2 := by omega
        by_cases ha : p.2.action = .absent
        · rw [if_pos ha]
          exact ih _ _ i2 j2 hij2 hi2 hj2
        · rw [if_neg ha]
          exact ih _ _ i2 j2 hij2 hi2 hj2

theorem overlapErrors_mem (vlans : List (Int × VLANDesiredState))
    (v : Int × VLANDesiredState) (port : String)
    (hv : v ∈ vlans) (hact : ¬ v.2.action = .absent)
    (hu : port ∈ v.2.untagged_ports) (ht : port ∈ v.2.tagged_ports) :
    ∃ ports vid, port ∈ ports ∧ overlapMsg ports vid ∈ overlapErrors vlans := by
  have hop : port ∈ overlapPorts v.2 := by
    simp only [overlapPorts, List.mem_filter, List.mem_dedup]
    exact ⟨hu, by simpa using ht⟩
  have hne : overlapPorts v.2 ≠ [] := List.ne_nil_of_mem hop
  refine ⟨overlapPorts v.2, v.1, hop, ?_⟩
  rw [overlapErrors]
  apply List.mem_filterMap.mpr
  exact ⟨v, hv, by rw [if_neg hact, if_pos hne]⟩

/-- C4 (confirmed): whenever a port appears in the untagged lists of two
distinct ensure VLANs (at two positions of the desired VLAN map), or in
both the untagged and tagged lists of one ensure VLAN, `validate` returns
valid = false together with a conflict error message naming that port; hence
no desired state with duplicate untagged port assignments passes
validation. -/
theorem C4_port_conflicts (device_type : Option String) (D : DesiredState)
    (port : String)
    (h : (∃ i j vi vj, i < j ∧ D.vlans.get? i = some vi ∧
            D.vlans.get? j = some vj ∧
            vi.2.action = .ensure ∧ vj.2.action = .ensure ∧
            port ∈ vi.2.untagged_ports ∧ port ∈ vj.2.untagged_ports) ∨
         (∃ v ∈ D.vlans, v.2.action = .ensure ∧ port ∈ v.2.untagged_ports ∧
            port ∈ v.2.tagged_ports)) :
    (validate device_type D).valid = false ∧
    ((∃ v1 v2, conflictMsg port v1 v2 ∈ (validate device_type D).errors) ∨
     (∃ ports vid, port ∈ ports ∧
        overlapMsg ports vid ∈ (validate device_type D).errors)) := by
  have herr : (validate device_type D).errors =
      validateVlansErrors device_type D.vlans ++
      (validatePortsErrors device_type D.ports ++
        checkPortConflicts D.vlans) := by
    rw [validate, List.append_assoc]
  have key : (∃ v1 v2, conflictMsg port v1 v2 ∈ checkPortConflicts D.vlans) ∨
      (∃ ports vid, port ∈ ports ∧
        overlapMsg ports vid ∈ checkPortConflicts D.vlans) := by
    rcases h with ⟨i, j, vi, vj, hij, hi, hj, ai, aj, pi, pj⟩ | ⟨v, hv, ha, hu, ht⟩
    · left
      obtain ⟨v1, v2, hm⟩ := conflictAux_two D.vlans [] [] port i j vi vj hij
        hi hj (by rw [ai]; exact fun hc => by cases hc)
        (by rw [aj]; exact fun hc => by cases hc) pi pj
      exact ⟨v1, v2, List.mem_append_left _ hm⟩
    · right
      obtain ⟨ports, vid, hp, hm⟩ := overlapErrors_mem D.vlans v port hv
        (by rw [ha]; exact fun hc => by cases hc) hu ht
      exact ⟨ports, vid, hp, List.mem_append_right _ hm⟩
  have hmem : ∃ msg, msg ∈ (validate device_type D).errors := by
    rcases key with ⟨v1, v2, hm⟩ | ⟨ports, vid, -, hm⟩
    · exact ⟨conflictMsg port v1 v2, by
        rw [herr]
        exact List.mem_append_right _ (List.mem_append_right _ hm)⟩
    · exact ⟨overlapMsg ports vid, by
        rw [herr]
        exact List.mem_append_right _ (List.mem_append_right _ hm)⟩
  constructor
  · obtain ⟨msg, hmsg⟩ := hmem
    have hne : (validate device_type D).errors ≠ [] := List.ne_nil_of_mem hmsg
    have hv : (validate device_type D).valid =
        (validate device_type D).errors.isEmpty := rfl
    rw [hv]
    simpa [List.isEmpty_iff] using hne
  · rcases key with ⟨v1, v2, hm⟩ | ⟨ports, vid, hp, hm⟩
    · exact Or.inl ⟨v1, v2, by
        rw [herr]
        exact List.mem_append_right _ (List.mem_append_right _ hm)⟩
    · exact Or.inr ⟨ports, vid, hp, by
        rw [herr]
        exact List.mem_append_right _ (List.mem_append_right _ hm)⟩

/-- C4 witness: the conflict theorem applied to the spec's scenario 5 —
VLAN 100 and VLAN 200 both claim port 1/1/1 untagged. -/
theorem C4_port_conflicts_witness :
    ((∃ i j vi vj, i < j ∧ c4wD.vlans.get? i = some vi ∧
        c4wD.vlans.get? j = some vj ∧ vi.2.action = .ensure ∧
        vj.2.action = .ensure ∧ "1/1/1" ∈ vi.2.untagged_ports ∧
        "1/1/1" ∈ vj.2.untagged_ports) ∨
     (∃ v ∈ c4wD.vlans, v.2.action = .ensure ∧ "1/1/1" ∈ v.2.untagged_ports ∧
        "1/1/1" ∈ v.2.tagged_ports)) ∧
    ((validate none c4wD).valid = false ∧
     ((∃ v1 v2, conflictMsg "1/1/1" v1 v2 ∈ (validate none c4wD).errors) ∨
      (∃ ports vid, "1/1/1" ∈ ports ∧
         overlapMsg ports vid ∈ (validate none c4wD).errors))) :=
  ⟨Or.inl ⟨0, 1, (100, c4v1), (200, c4v2), by decide, rfl, rfl, rfl, rfl,
     by decide, by decide⟩,
   C4_port_conflicts none c4wD "1/1/1"
     (Or.inl ⟨0, 1, (100, c4v1), (200, c4v2), by decide, rfl, rfl, rfl, rfl,
       by decide, by decide⟩)⟩

/-! Theorems about the drift calculation (C6). -/

theorem mem_checkVlanDrift (vid : Int) (d a : StoredVlan) (it : DriftItem) :
    it ∈ checkVlanDrift vid d a ↔
      (driftMissingU d a ≠ [] ∧ it = driftItemMU vid d a) ∨
      ((driftExtraU d a ≠ [] ∧ driftDU d ≠ []) ∧ it = driftItemEU vid d a) ∨
      (driftMissingT d a ≠ [] ∧ it = driftItemMT vid d a) := by
  by_cases h1 : driftMissingU d a ≠ [] <;>
  by_cases h2 : driftExtraU d a ≠ [] ∧ driftDU d ≠ [] <;>
  by_cases h3 : driftMissingT d a ≠ [] <;>
  simp [checkVlanDrift, h1, h2, h3]

/-- C6 (amended): for every VLAN present in both stored desired config and
live state, `_check_vlan_drift` emits a missing-untagged item exactly when
some desired untagged port is absent from live, an extra-untagged item
exactly when some live untagged port is undesired AND the desired untagged
set is non-empty, and a missing-tagged item exactly when some desired tagged
port is absent from live; every emitted item carries the expected and actual
set contents — but, contrary to the original claim, NO extra-tagged item is
ever emitted. -/
theorem C6_vlan_drift (vid : Int) (d a : StoredVlan) :
    ((∃ it ∈ checkVlanDrift vid d a,
        strStarts "Missing untagged ports:" it.details = true) ↔
      ∃ p ∈ storeExpandPorts d.untagged_ports, p ∉ a.untagged_ports) ∧
    ((∃ it ∈ checkVlanDrift vid d a,
        strStarts "Extra untagged ports:" it.details = true) ↔
      ((∃ p ∈ a.untagged_ports, p ∉ storeExpandPorts d.untagged_ports) ∧
       storeExpandPorts d.untagged_ports ≠ [])) ∧
    ((∃ it ∈ checkVlanDrift vid d a,
        strStarts "Missing tagged ports:" it.details = true) ↔
      ∃ p ∈ storeExpandPorts d.tagged_ports, p ∉ a.tagged_ports) ∧
    (∀ it ∈ checkVlanDrift vid d a,
        strStarts "Extra tagged" it.details = false) ∧
    (∀ it ∈ checkVlanDrift vid d a,
        (it.expected = (storeExpandPorts d.untagged_ports).dedup ∧
         it.actual = a.untagged_ports.dedup) ∨
        (it.expected = (storeExpandPorts d.tagged_ports).dedup ∧
         it.actual = a.tagged_ports.dedup)) := by
  have s11 : ∀ x, strStarts "Missing untagged ports:"
      ("Missing untagged ports: " ++ x) = true := fun x => by
    rw [strStarts, strDataAppend, listStarts_append _ _ _ (by decide)]; decide
  have s12 : ∀ x, strStarts "Missing untagged ports:"
      ("Extra untagged ports: " ++ x) = false := fun x => by
    rw [strStarts, strDataAppend]
    exact listStarts_append_false _ _ _ 0 (by decide) (by decide) (by decide)
  have s13 : ∀ x, strStarts "Missing untagged ports:"
      ("Missing tagged ports: " ++ x) = false := fun x => by
    rw [strStarts, strDataAppend]
    exact listStarts_append_false _ _ _ 8 (by decide) (by decide) (by decide)
  have s21 : ∀ x, strStarts "Extra untagged ports:"
      ("Missing untagged ports: " ++ x) = false := fun x => by
    rw [strStarts, strDataAppend]
    exact listStarts_append_false _ _ _ 0 (by decide) (by decide) (by decide)
  have s22 : ∀ x, strStarts "Extra untagged ports:"
      ("Extra untagged ports: " ++ x) = true := fun x => by
    rw [strStarts, strDataAppend, listStarts_append _ _ _ (by decide)]; decide
  have s23 : ∀ x, strStarts "Extra untagged ports:"
      ("Missing tagged ports: " ++ x) = false := fun x => by
    rw [strStarts, strDataAppend]
    exact listStarts_append_false _ _ _ 0 (by decide) (by decide) (by decide)
  have s31 : ∀ x, strStarts "Missing tagged ports:"
      ("Missing untagged ports: " ++ x) = false := fun x => by
    rw [strStarts, strDataAppend]
    exact listStarts_append_false _ _ _ 8 (by decide) (by decide) (by decide)
  have s32 : ∀ x, strStarts "Missing tagged ports:"
      ("Extra untagged ports: " ++ x) = false := fun x => by
    rw [strStarts, strDataAppend]
    exact listStarts_append_false _ _ _ 0 (by decide) (by decide) (by decide)
  have s33 : ∀ x, strStarts "Missing tagged ports:"
      ("Missing tagged ports: " ++ x) = true := fun x => by
    rw [strStarts, strDataAppend, listStarts_append _ _ _ (by decide)]; decide
  have s41 : ∀ x, strStarts "Extra tagged"
      ("Missing untagged ports: " ++ x) = false := fun x => by
    rw [strStarts, strDataAppend]
    exact listStarts_append_false _ _ _ 0 (by decide) (by decide) (by decide)
  have s42 : ∀ x, strStarts "Extra tagged"
      ("Extra untagged ports: " ++ x) = false := fun x => by
    rw [strStarts, strDataAppend]
    exact listStarts_append_false _ _ _ 6 (by decide) (by decide) (by decide)
  have s43 : ∀ x, strStarts "Extra tagged"
      ("Missing tagged ports: " ++ x) = false := fun x => by
    rw [strStarts, strDataAppend]
    exact listStarts_append_false _ _ _ 0 (by decide) (by decide) (by decide)
  have dMU : (driftItemMU vid d a).details =
      "Missing untagged ports: " ++ joinComma (pySorted (driftMissingU d a)) := rfl
  have dEU : (driftItemEU vid d a).details =
      "Extra untagged ports: " ++ joinComma (pySorted (driftExtraU d a)) := rfl
  have dMT : (driftItemMT vid d a).details =
      "Missing tagged ports: " ++ joinComma (pySorted (driftMissingT d a)) := rfl
  refine ⟨?_, ?_, ?_, ?_, ?_⟩
  · constructor
    · rintro ⟨it, hmem, hst⟩
      rcases (mem_checkVlanDrift vid d a it).mp hmem with
        ⟨hc, rfl⟩ | ⟨hc, rfl⟩ | ⟨hc, rfl⟩
      · simp only [driftMissingU, driftDU, driftAU] at hc
        exact (filter_notmem_ne_nil _ _).mp hc
      · rw [dEU, s12] at hst; cases hst
      · rw [dMT, s13] at hst; cases hst
    · intro hex
      refine ⟨driftItemMU vid d a,
        (mem_checkVlanDrift vid d a _).mpr (Or.inl ⟨?_, rfl⟩), ?_⟩
      · simp only [driftMissingU, driftDU, driftAU]
        exact (filter_notmem_ne_nil _ _).mpr hex
      · rw [dMU]; exact s11 _
  · constructor
    · rintro ⟨it, hmem, hst⟩
      rcases (mem_checkVlanDrift vid d a it).mp hmem with
        ⟨hc, rfl⟩ | ⟨hc, rfl⟩ | ⟨hc, rfl⟩
      · rw [dMU, s21] at hst; cases hst
      · constructor
        · have h2 := hc.1
          simp only [driftExtraU, driftAU, driftDU] at h2
          exact (filter_notmem_ne_nil _ _).mp h2
        · have h2 := hc.2
          simp only [driftDU] at h2
          exact fun h0 => h2 (by rw [h0]; rfl)
      · rw [dMT, s23] at hst; cases hst
    · rintro ⟨hex, hne⟩
      refine ⟨driftItemEU vid d a,
        (mem_checkVlanDrift vid d a _).mpr (Or.inr (Or.inl ⟨⟨?_, ?_⟩, rfl⟩)), ?_⟩
      · simp only [driftExtraU, driftAU, driftDU]
        exact (filter_notmem_ne_nil _ _).mpr hex
      · simp only [driftDU]
        exact fun h0 => hne ((List.dedup_eq_nil _).mp h0)
      · rw [dEU]; exact s22 _
  · constructor
    · rintro ⟨it, hmem, hst⟩
      rcases (mem_checkVlanDrift vid d a it).mp hmem with
        ⟨hc, rfl⟩ | ⟨hc, rfl⟩ | ⟨hc, rfl⟩
      · rw [dMU, s31] at hst; cases hst
      · rw [dEU, s32] at hst; cases hst
      · simp only [driftMissingT, driftDT, driftAT] at hc
        exact (filter_notmem_ne_nil _ _).mp hc
    · intro hex
      refine ⟨driftItemMT vid d a,
        (mem_checkVlanDrift vid d a _).mpr (Or.inr (Or.inr ⟨?_, rfl⟩)), ?_⟩
      · simp only [driftMissingT, driftDT, driftAT]
        exact (filter_notmem_ne_nil _ _).mpr hex
      · rw [dMT]; exact s33 _
  · intro it hmem
    rcases (mem_checkVlanDrift vid d a it).mp hmem with
      ⟨hc, rfl⟩ | ⟨hc, rfl⟩ | ⟨hc, rfl⟩
    · rw [dMU]; exact s41 _
    · rw [dEU]; exact s42 _
    · rw [dMT]; exact s43 _
  · intro it hmem
    rcases (mem_checkVlanDrift vid d a it).mp hmem with
      ⟨hc, rfl⟩ | ⟨hc, rfl⟩ | ⟨hc, rfl⟩
    · exact Or.inl ⟨rfl, rfl⟩
    · exact Or.inl ⟨rfl, rfl⟩
    · exact Or.inr ⟨rfl, rfl⟩

/-- C6 counterexample: take a VLAN whose desired state has no tagged ports
while the live state carries tagged port "1/1/5" (memberships otherwise
equal): the live state has an extra tagged port, yet the drift calculation
emits no item at all — the claimed extra-tagged drift item does not exist. -/
theorem C6_counterexample :
    checkVlanDrift 100 { untagged_ports := [], tagged_ports := [] }
      { untagged_ports := [], tagged_ports := ["1/1/5"] } = [] := by
  decide

end Switchcraft

namespace Switchcraft

/-! Theorems about the parser's port-range expansion (C8). -/

/-- C8 (amended): a token that is not a single-dash range, and a single-dash
simple-form range whose endpoint is not numeric, are preserved by
`_expand_port_range` as exactly the one original token; but a full-form
range whose start and end differ in unit or module, have a non-numeric
position, or are not three-component identifiers is replaced by exactly the
two endpoint strings `[start, end]` — not kept as one opaque element as the
original claim stated. -/
theorem C8_malformed_range (t : String) :
    (strCount t '-' ≠ 1 → expandPortRange t = [t]) ∧
    (∀ baseL endL, splitLastChar '-' t.data = some (baseL, endL) →
      strCount t '-' = 1 →
      strContainsChar (String.mk endL) '/' = false →
      pyInt? (String.mk endL) = none →
      expandPortRange t = [t]) ∧
    (∀ start endp : String,
      ((pySplitChar '/' start).length ≠ 3 ∨ (pySplitChar '/' endp).length ≠ 3 ∨
       (pySplitChar '/' start).getD 0 "" ≠ (pySplitChar '/' endp).getD 0 "" ∨
       (pySplitChar '/' start).getD 1 "" ≠ (pySplitChar '/' endp).getD 1 "" ∨
       pyInt? ((pySplitChar '/' start).getD 2 "") = none ∨
       pyInt? ((pySplitChar '/' endp).getD 2 "") = none) →
      expandFullRange start endp = [start, endp]) := by
  refine ⟨?_, ?_, ?_⟩
  · intro h
    rw [expandPortRange, if_neg h]
  · intro baseL endL hsplit hcount hcontains hint
    rw [expandPortRange, if_pos hcount, hsplit]
    simp only [hcontains, Bool.false_eq_true, if_false, hint]
  · intro start endp h
    rw [expandFullRange]
    by_cases c1 : (pySplitChar '/' start).length ≠ 3 ∨
        (pySplitChar '/' endp).length ≠ 3
    · rw [if_pos c1]
    · rw [if_neg c1]
      by_cases c2 : (pySplitChar '/' start).getD 0 "" ≠ (pySplitChar '/' endp).getD 0 "" ∨
          (pySplitChar '/' start).getD 1 "" ≠ (pySplitChar '/' endp).getD 1 ""
      · rw [if_pos c2]
      · rw [if_neg c2]
        push_neg at c1 c2
        rcases h with h | h | h | h | h | h
        · exact absurd c1.1 h
        · exact absurd c1.2 h
        · exact absurd c2.1 h
        · exact absurd c2.2 h
        · rw [h]
        · rw [h]
          cases pyInt? ((pySplitChar '/' start).getD 2 "") <;> rfl

/-- C8 witness: the three amended behaviours at concrete tokens — a
double-dash token is preserved, a simple range with non-numeric endpoint is
preserved, and a full-form range spanning units splits into its two
endpoints. -/
theorem C8_malformed_range_witness :
    (strCount "1/1/1-2-3" '-' ≠ 1 ∧ expandPortRange "1/1/1-2-3" = ["1/1/1-2-3"]) ∧
    (expandPortRange "1/1/1-x" = ["1/1/1-x"]) ∧
    (expandFullRange "1/1/1" "2/1/4" = ["1/1/1", "2/1/4"]) :=
  ⟨⟨by decide, (C8_malformed_range "1/1/1-2-3").1 (by decide)⟩,
   (C8_malformed_range "1/1/1-x").2.1 "1/1/1".data "x".data
     (by decide) (by decide) (by decide) (by decide),
   (C8_malformed_range "x").2.2 "1/1/1" "2/1/4" (by decide)⟩

/-- C8 counterexample: the full-form range "1/1/1-2/1/4" spans two units and
cannot be expanded, yet the port-list expansion turns it into the two
elements ["1/1/1", "2/1/4"] instead of preserving it as one opaque token. -/
theorem C8_counterexample :
    expandPortList ["1/1/1-2/1/4"] = ["1/1/1", "2/1/4"] ∧
    expandPortList ["1/1/1-2/1/4"] ≠ ["1/1/1-2/1/4"] := by
  constructor
  · decide
  · decide

/-- C9 counterexample: for the one-character password "x" the encoder's
output has length 320, refuting the claimed fixed length of 321. -/
theorem C9_counterexample :
    (zyxelEncodePassword (fun _ => 'a') ['x']).length ≠ 321 := by
  have h := zyxelLoopFrom_eq_map (fun _ => 'a') ['x'] (by decide)
    ((322 - (1 : Nat)) - 1) 1 1 (le_refl 1) (by decide)
  rw [zyxelEncodePassword]
  show (zyxelLoopFrom (fun _ => 'a') ['x'] ((322 - (['x'] : List Char).length) - 1)
    1 (['x'] : List Char).length).length ≠ 321
  rw [show ((322 - (['x'] : List Char).length) - 1) = 320 from rfl] at *
  rw [show ((['x'] : List Char).length) = 1 from rfl]
  rw [h, List.length_map, List.length_range]
  omega

end Switchcraft
